import Mathlib

/-! Verification of `rpython/translator/c/src/debug_print.c`.

A shallow embedding of the PYPYLOG tracing facility: the category filter
`startswithoneof`, the nesting mask `pypy_have_debug_prints`, the stream
manager (`pypy_debug_open`, `pypy_debug_offset`, `pypy_debug_forked`), the
per-thread colour markers and the marker emitter `display_startstop`.

Conventions of the embedding.

* A C string is the list of its characters before the terminating NUL.
  Reading `*p` at the end of a string yields NUL (`deref`).
* A `FILE *` is an `Option FILE`; `none` is the NULL pointer.
* A `char *` global that may be NULL is an `Option CString`.
* `long` is a 64-bit two's complement integer, modelled by `Int` with an
  explicit wrap-around (`wrapLong`); `int` likewise with `wrapInt`.
* Every call into the C library or into an external collaborator that acts on
  a stream, on the environment or on the profiler is appended to the field
  `calls` of the state, with its arguments; this log is the observable
  behaviour of the program.
* What the operating system answers (whether `fopen` succeeds, `isatty(2)`,
  `getpid()`, whether `malloc` succeeds, `ftell`) is a parameter `os : OS`.
* `READ_TIMESTAMP` is a macro defined outside this file; the value it stores
  is a parameter `timestamp` of the operations that read the clock.
* The POSIX branch (`unsetenv`) of the conditional compilation is embedded in
  `pypy_debug_open`; `pypy_debug_open_win32` is the function with the other
  branch.
-/

namespace DebugPrint

/-! ## Strings and machine integers -/

/-- Characters of a C string before its terminating NUL. -/
abbrev CString := List Char

/-- The string terminator. -/
def NUL : Char := Char.ofNat 0

/-- Value of `*p`: the first character, or the terminator at the end. -/
def deref (p : CString) : Char := p.headD NUL

/-- Result of `strchr(s, c)` as an offset from `s`, `none` for NULL. -/
def strchr : CString → Char → Option Nat
  | [], _ => none
  | d :: s, c => if d = c then some 0 else (strchr s c).map (· + 1)

/-- Reduction of an integer to the range of a 64-bit `long`. -/
def wrapLong (x : Int) : Int := (x + 2 ^ 63) % 2 ^ 64 - 2 ^ 63

/-- Reduction of an integer to the range of a 32-bit `int`. -/
def wrapInt (x : Int) : Int := (x + 2 ^ 31) % 2 ^ 32 - 2 ^ 31

/-- Value of `x << 1` on a `long`. -/
def shl1 (x : Int) : Int := wrapLong (x <<< (1 : Int))

/-- Value of `x >> 1` on a `long` (arithmetic shift). -/
def shr1 (x : Int) : Int := x >>> (1 : Nat)

/-- Value of `x & 1` in two's complement. -/
def and1 (x : Int) : Int := x % 2

/-- Value of `x | 1` in two's complement. -/
def or1 (x : Int) : Int := if x % 2 = 0 then x + 1 else x

/-- Text produced by the `printf` conversions `%d` and `%ld`. -/
def fmt_d (n : Int) : CString :=
  if n < 0 then '-' :: Nat.toDigits 10 n.natAbs else Nat.toDigits 10 n.natAbs

/-- Text produced by the `printf` conversion `%llx` for a `long long`:
the value read as unsigned 64-bit, in lowercase hexadecimal, unpadded. -/
def fmt_llx (n : Int) : CString := Nat.toDigits 16 (n % 2 ^ 64).toNat

/-! ## Streams, library calls, operating system -/

/-- An open stream: standard error, or the stream `fopen` returned for a path. -/
inductive FILE where
  | stderr : FILE
  | opened (path : CString) : FILE
  deriving DecidableEq, Repr

/-- Calls made to the C library and to external collaborators. -/
inductive LibCall where
  | pypy_setup_profiling : LibCall
  | fopen_w (path : CString) (result : Option FILE) : LibCall
  | fclose (stream : Option FILE) : LibCall
  | fprintf (stream : Option FILE) (text : CString) : LibCall
  | fflush (stream : Option FILE) : LibCall
  | ftell (stream : Option FILE) : LibCall
  | unsetenv_PYPYLOG : LibCall
  | putenv_PYPYLOG_empty : LibCall
  deriving DecidableEq, Repr

/-- Answers of the operating system and of the build configuration. -/
structure OS where
  /-- Whether `fopen(path, "w")` succeeds. -/
  fopen_ok : CString → Bool
  /-- Result of `isatty(2)`. -/
  isatty_2 : Bool
  /-- Result of `getpid()`. -/
  getpid : Int
  /-- Whether `malloc(size)` returns storage. -/
  malloc_ok : Nat → Bool
  /-- Result of `ftell(stream)`. -/
  ftell : Option FILE → Int
  /-- Result of `dprintfcolor()`; the constant 0 without `RPY_STM`. -/
  dprintfcolor : Int

/-- Result of `fopen(path, "w")`. -/
def fopen (os : OS) (path : CString) : Option FILE :=
  if os.fopen_ok path then some (FILE.opened path) else none

/-- Global variables of `debug_print.c`, the `PYPYLOG` environment variable,
and the log of library calls. -/
structure DebugState where
  pypy_have_debug_prints : Int
  pypy_debug_file : Option FILE
  debug_ready : Bool
  debug_profile : Bool
  debug_start_colors_1 : CString
  debug_start_colors_2 : CString
  debug_stop_colors : CString
  debug_prefix : Option CString
  debug_filename : Option CString
  debug_filename_with_fork : Option CString
  threadcounter : Int
  PYPYLOG : Option CString
  calls : List LibCall
  deriving DecidableEq, Repr

/-- The static initialisers of the globals, with a given environment. -/
def initial (env : Option CString) : DebugState where
  pypy_have_debug_prints := -1
  pypy_debug_file := none
  debug_ready := false
  debug_profile := false
  debug_start_colors_1 := []
  debug_start_colors_2 := []
  debug_stop_colors := []
  debug_prefix := none
  debug_filename := none
  debug_filename_with_fork := none
  threadcounter := 0
  PYPYLOG := env
  calls := []

/-! ## Stream manager -/

/-- The part of `pypy_debug_open` guarded by `if (filename && filename[0])`,
for the value `filename` of the variable. The unchecked `malloc` and `strdup`
are taken to return storage. -/
def pypy_debug_open_configured (os : OS) (filename : CString) (s : DebugState) :
    DebugState :=
  let colon := strchr filename ':'
  let s1 : DebugState :=
    match colon with
    | none =>
      { s with debug_profile := true, calls := s.calls ++ [LibCall.pypy_setup_profiling] }
    | some n => { s with debug_prefix := some (filename.take n) }
  let filename1 : CString :=
    match colon with
    | none => filename
    | some n => filename.drop (n + 1)
  if filename1 ≠ "-".toList then
    { s1 with
      debug_filename := some filename1
      pypy_debug_file := fopen os filename1
      calls := s1.calls ++ [LibCall.fopen_w filename1 (fopen os filename1)] }
  else s1

/-- C function `pypy_debug_open`. -/
def pypy_debug_open (os : OS) (s : DebugState) : DebugState :=
  let filename := s.PYPYLOG
  let s1 : DebugState :=
    match filename with
    | some v => if deref v ≠ NUL then pypy_debug_open_configured os v s else s
    | none => s
  let s2 : DebugState :=
    if s1.pypy_debug_file = none then
      { s1 with
        pypy_debug_file := some FILE.stderr
        debug_stop_colors :=
          if os.isatty_2 then "\x1b[0m".toList else s1.debug_stop_colors }
    else s1
  let s3 : DebugState :=
    if filename.isSome then
      { s2 with PYPYLOG := none, calls := s2.calls ++ [LibCall.unsetenv_PYPYLOG] }
    else s2
  { s3 with debug_ready := true }

/-- C function `pypy_debug_open` as compiled with `_WIN32` defined: the last
conditional statement is `putenv("PYPYLOG=")` instead of `unsetenv`, which
leaves the variable set to the empty string. -/
def pypy_debug_open_win32 (os : OS) (s : DebugState) : DebugState :=
  let filename := s.PYPYLOG
  let s1 : DebugState :=
    match filename with
    | some v => if deref v ≠ NUL then pypy_debug_open_configured os v s else s
    | none => s
  let s2 : DebugState :=
    if s1.pypy_debug_file = none then
      { s1 with
        pypy_debug_file := some FILE.stderr
        debug_stop_colors :=
          if os.isatty_2 then "\x1b[0m".toList else s1.debug_stop_colors }
    else s1
  let s3 : DebugState :=
    if filename.isSome then
      { s2 with PYPYLOG := some [], calls := s2.calls ++ [LibCall.putenv_PYPYLOG_empty] }
    else s2
  { s3 with debug_ready := true }

/-- C function `pypy_debug_offset`: the returned value and the new state. -/
def pypy_debug_offset (os : OS) (s : DebugState) : Int × DebugState :=
  if s.debug_ready = false then (-1, s)
  else
    (os.ftell s.pypy_debug_file,
      { s with
        calls := s.calls ++
          [LibCall.fflush s.pypy_debug_file, LibCall.ftell s.pypy_debug_file] })

/-- C function `pypy_debug_ensure_opened`. -/
def pypy_debug_ensure_opened (os : OS) (s : DebugState) : DebugState :=
  if s.debug_ready = false then pypy_debug_open os s else s

/-- C function `pypy_debug_forked`. -/
def pypy_debug_forked (os : OS) (original_offset : Int) (s : DebugState) : DebugState :=
  match s.debug_filename with
  | none => s
  | some root =>
    let s1 : DebugState :=
      { s with
        pypy_debug_file := none
        calls := s.calls ++ [LibCall.fclose s.pypy_debug_file] }
    if os.malloc_ok (root.length + 32) = false then s1
    else
      let filename : CString := root ++ ".fork".toList ++ fmt_d os.getpid
      let s2 : DebugState :=
        { s1 with
          pypy_debug_file := fopen os filename
          calls := s1.calls ++ [LibCall.fopen_w filename (fopen os filename)] }
      let s3 : DebugState :=
        if s2.pypy_debug_file ≠ none then
          { s2 with
            calls := s2.calls ++
              [LibCall.fprintf s2.pypy_debug_file
                ("FORKED: ".toList ++ fmt_d original_offset ++ " ".toList ++
                  (match s.debug_filename_with_fork with
                    | some name => name
                    | none => root) ++ "\n".toList)] }
        else s2
      { s3 with debug_filename_with_fork := some filename }

/-! ## Category filter -/

/-- The loop of `startswithoneof`: `p` is the scanning pointer (`none` is
NULL), the last argument is what remains of `substr`. -/
def startswithoneof_loop (str : CString) : Option CString → CString → Bool
  | p, [] => p.isSome
  | p, c :: substr =>
    if c ≠ ',' then
      match p with
      | some q =>
        if deref q ≠ c then startswithoneof_loop str none substr
        else startswithoneof_loop str (some q.tail) substr
      | none => startswithoneof_loop str none substr
    else if p.isSome then true
    else startswithoneof_loop str (some str) substr

/-- C function `startswithoneof`. -/
def startswithoneof (str substr : CString) : Bool :=
  startswithoneof_loop str (some str) substr

/-- The filter as the specification words it: some element of the list split
at every comma is an initial segment of the category. -/
def matches_some_element (category list : CString) : Bool :=
  (List.splitOn ',' list).any (fun e => e.isPrefixOf category)

/-! ## Emitter and colour markers -/

/-- C function `display_startstop`; `pfx` and `sfx` are its parameters
`prefix` and `postfix`. -/
def display_startstop (timestamp : Int) (pfx sfx category colors : CString)
    (s : DebugState) : DebugState :=
  { s with
    calls := s.calls ++
      [LibCall.fprintf s.pypy_debug_file
        (colors ++ "[".toList ++ fmt_llx timestamp ++ "] ".toList ++ pfx ++ category ++ sfx ++
          "\n".toList ++ s.debug_stop_colors)] }

/-- The macro `bool_cas(vp, o, n)` of the build without `RPY_STM`: the new
content of `*vp` and the value of the expression. -/
def bool_cas (_v _o n : Int) : Int × Bool := (n, true)

/-- Modelled from the spec: the macro `bool_cas` of the build with `RPY_STM`,
defined in `src_stm/atomic_ops.h`, which is not among the sources; an atomic
compare-and-swap that stores `n` and yields 1 when `*vp` still holds `o`, and
otherwise leaves `*vp` alone and yields 0. -/
def bool_cas_atomic (v o n : Int) : Int × Bool := if v = o then (n, true) else (v, false)

/-- The `while (1)` loop at the head of `_prepare_display_colors`, for a given
`bool_cas` and a bound on the number of iterations: the value of `counter`
at the `break` and the new content of `threadcounter`, or `none` when the
bound is reached. -/
def thread_id_loop (cas : Int → Int → Int → Int × Bool) : Nat → Int → Option (Int × Int)
  | 0, _ => none
  | fuel + 1, threadcounter =>
    let counter := threadcounter
    if (cas threadcounter counter (wrapLong (counter + 1))).2 then
      some (counter, (cas threadcounter counter (wrapLong (counter + 1))).1)
    else thread_id_loop cas fuel (cas threadcounter counter (wrapLong (counter + 1))).1

/-- The loop run `n` times one after another, as by `n` threads that reach
`_prepare_display_colors` in turn: the ids obtained, in order, and the final
content of `threadcounter`. -/
def allocate_ids (cas : Int → Int → Int → Int × Bool) (fuel : Nat) :
    Nat → Int → Option (List Int × Int)
  | 0, threadcounter => some ([], threadcounter)
  | n + 1, threadcounter =>
    match thread_id_loop cas fuel threadcounter with
    | none => none
    | some (id, next) =>
      match allocate_ids cas fuel n next with
      | none => none
      | some (ids, final) => some (id :: ids, final)

/-- C function `_prepare_display_colors` (build without `RPY_STM`). The
`while (1)` loop is left in its first iteration, `bool_cas` having the value 1. -/
def _prepare_display_colors (os : OS) (s : DebugState) : DebugState :=
  let counter := s.threadcounter
  let s1 : DebugState :=
    { s with threadcounter := (bool_cas s.threadcounter counter (wrapLong (counter + 1))).1 }
  if deref s1.debug_stop_colors = NUL then
    { s1 with
      debug_start_colors_1 := fmt_d (wrapInt counter) ++ "# ".toList
      debug_start_colors_2 := fmt_d (wrapInt counter) ++ "# ".toList }
  else
    let color : Int :=
      if os.dprintfcolor = 0 then wrapInt (31 + wrapInt (Int.tmod counter 7))
      else os.dprintfcolor
    { s1 with
      debug_start_colors_1 :=
        "\x1b[".toList ++ fmt_d color ++ "m".toList ++ fmt_d (wrapInt counter) ++
          "# \x1b[1m".toList
      debug_start_colors_2 :=
        "\x1b[".toList ++ fmt_d color ++ "m".toList ++ fmt_d (wrapInt counter) ++
          "# ".toList }

/-! ## Sections -/

/-- The last two statements of `pypy_debug_start`: prepare the colour markers
of the thread if they are not yet set, then write the opening marker. -/
def pypy_debug_start_display (os : OS) (timestamp : Int) (category : CString)
    (s : DebugState) : DebugState :=
  let s1 : DebugState :=
    if deref s.debug_start_colors_1 = NUL then _prepare_display_colors os s else s
  display_startstop timestamp "\x7b".toList [] category s1.debug_start_colors_1 s1

/-- C function `pypy_debug_start`. -/
def pypy_debug_start (os : OS) (timestamp : Int) (category : CString) (s : DebugState) :
    DebugState :=
  let s1 := pypy_debug_ensure_opened os s
  let s2 : DebugState := { s1 with pypy_have_debug_prints := shl1 s1.pypy_have_debug_prints }
  if s2.debug_profile = false then
    match s2.debug_prefix with
    | none => s2
    | some list =>
      if startswithoneof category list = false then s2
      else
        pypy_debug_start_display os timestamp category
          { s2 with pypy_have_debug_prints := or1 s2.pypy_have_debug_prints }
  else pypy_debug_start_display os timestamp category s2

/-- C function `pypy_debug_stop`. -/
def pypy_debug_stop (timestamp : Int) (category : CString) (s : DebugState) : DebugState :=
  let s1 : DebugState :=
    if s.debug_profile = true ∨ and1 s.pypy_have_debug_prints ≠ 0 then
      display_startstop timestamp [] "\x7d".toList category s.debug_start_colors_2 s
    else s
  { s1 with pypy_have_debug_prints := shr1 s1.pypy_have_debug_prints }

/-! ## Sequences of calls -/

/-- A call of `pypy_debug_start` or `pypy_debug_stop`, with the timestamp the
clock returns during the call. -/
inductive Op where
  | start (timestamp : Int) (category : CString) : Op
  | stop (timestamp : Int) (category : CString) : Op
  deriving DecidableEq, Repr

/-- Effect of one call. -/
def Op.run (os : OS) : Op → DebugState → DebugState
  | Op.start t c, s => pypy_debug_start os t c s
  | Op.stop t c, s => pypy_debug_stop t c s

/-- Effect of a sequence of calls, from left to right. -/
def runOps (os : OS) : List Op → DebugState → DebugState
  | [], s => s
  | op :: ops, s => runOps os ops (op.run os s)

/-- Matched nesting within a depth limit: from depth `d`, no `stop` is issued
at depth 0 and no `start` at depth `limit`. -/
def wellNested (limit : Nat) : Nat → List Op → Bool
  | _, [] => true
  | d, Op.start _ _ :: ops => decide (d < limit) && wellNested limit (d + 1) ops
  | 0, Op.stop _ _ :: _ => false
  | d + 1, Op.stop _ _ :: ops => wellNested limit d ops

/-- Nesting depth after a sequence of calls that starts at depth `d`. -/
def depthAfter : Nat → List Op → Nat
  | d, [] => d
  | d, Op.start _ _ :: ops => depthAfter (d + 1) ops
  | d, Op.stop _ _ :: ops => depthAfter (d - 1) ops

/-- Texts written with `fprintf`, in order. -/
def written : List LibCall → List CString
  | [] => []
  | LibCall.fprintf _ text :: cs => text :: written cs
  | _ :: cs => written cs

/-- Whether the step from `before` to `after` wrote exactly one more text. -/
def emitted (before after : DebugState) : Bool :=
  decide ((written after.calls).length = (written before.calls).length + 1)

/-- Low bit of the nesting mask, as a truth value. -/
def lowBit (s : DebugState) : Bool := decide (and1 s.pypy_have_debug_prints ≠ 0)

/-- What is known of a `stop` and of the `start` it matches. -/
structure StopView where
  /-- Low bit of the mask right after the matching `start`. -/
  pushed : Bool
  /-- Whether the matching `start` wrote an opening marker. -/
  opened : Bool
  /-- Low bit of the mask when the `stop` is entered. -/
  seen : Bool
  /-- Whether the `stop` wrote a closing marker. -/
  closed : Bool
  deriving DecidableEq, Repr

/-- Runs a sequence of calls next to an explicit stack of the open sections
(innermost first, each with the bit its `start` pushed and whether that
`start` wrote a marker) and reports one `StopView` per matched `stop`. -/
def stopViews (os : OS) : List Op → List (Bool × Bool) → DebugState → List StopView
  | [], _, _ => []
  | Op.start t c :: ops, stack, s =>
    stopViews os ops
      ((lowBit (pypy_debug_start os t c s), emitted s (pypy_debug_start os t c s)) :: stack)
      (pypy_debug_start os t c s)
  | Op.stop t c :: ops, [], s => stopViews os ops [] (pypy_debug_stop t c s)
  | Op.stop t c :: ops, top :: stack, s =>
    { pushed := top.1, opened := top.2, seen := lowBit s,
      closed := emitted s (pypy_debug_stop t c s) } ::
      stopViews os ops stack (pypy_debug_stop t c s)

/-- Content of the file at `path` after the logged calls: `fopen(path, "w")`
empties it, `fprintf` on its stream appends. -/
def file_content (path : CString) : List LibCall → CString → CString
  | [], acc => acc
  | LibCall.fopen_w p r :: cs, acc =>
    if p = path ∧ r ≠ none then file_content path cs [] else file_content path cs acc
  | LibCall.fprintf stream text :: cs, acc =>
    if stream = some (FILE.opened path) then file_content path cs (acc ++ text)
    else file_content path cs acc
  | _ :: cs, acc => file_content path cs acc

/-- Whether a category is active under the configured prefix list: the
condition under which `pypy_debug_start` does not return early when
`debug_profile` is 0. -/
def is_active (s : DebugState) (category : CString) : Bool :=
  match s.debug_prefix with
  | none => false
  | some list => startswithoneof category list

/-- Whether a call is a `stop`. -/
def Op.isStop : Op → Bool
  | Op.start _ _ => false
  | Op.stop _ _ => true

/-- Value of a stack of bits, innermost bit lowest. -/
def bitsVal : List Bool → Int
  | [] => 0
  | b :: bs => (if b then 1 else 0) + 2 * bitsVal bs

/-- An operating system where every `fopen` and `malloc` succeeds, standard
error is not a terminal and the process id is 1234. -/
def plainOS : OS where
  fopen_ok := fun _ => true
  isatty_2 := false
  getpid := 1234
  malloc_ok := fun _ => true
  ftell := fun _ => 0
  dprintfcolor := 0

/-- The sixteen lowercase hexadecimal digits, in order of value. -/
def hexAlphabet : List Char := "0123456789abcdef".toList

/-- Number denoted by a string of lowercase hexadecimal digits. -/
def hexValue (digits : CString) : Nat :=
  digits.foldl (fun acc ch => 16 * acc + hexAlphabet.indexOf ch) 0

/-- An operating system where no `fopen` succeeds and standard error is
redirected to a file in which `ftell` reports position 17. -/
def failingFopenOS : OS where
  fopen_ok := fun _ => false
  isatty_2 := false
  getpid := 1234
  malloc_ok := fun _ => true
  ftell := fun _ => 17
  dprintfcolor := 0

/-- The state after initialisation with `PYPYLOG=a:out.log` under `plainOS`. -/
def tracingToOutLog : DebugState :=
  pypy_debug_ensure_opened plainOS (initial (some "a:out.log".toList))

/-- The ten decimal digits, in order of value. -/
def decAlphabet : List Char := "0123456789".toList

/-- Number denoted by a string of decimal digits. -/
def decValue (digits : CString) : Nat :=
  digits.foldl (fun acc ch => 10 * acc + decAlphabet.indexOf ch) 0

/-- A state whose stream is a colour terminal and whose next thread id is 9. -/
def colourTerminalState : DebugState :=
  { initial none with threadcounter := 9, debug_stop_colors := "\x1b[0m".toList }

/-! ## The category filter agrees with independent prefix tests -/

theorem splitOn_cons_comma (P : CString) :
    List.splitOn ',' (',' :: P) = [] :: List.splitOn ',' P := by
  simp [List.splitOn, List.splitOnP_cons]

theorem splitOn_cons_other (c : Char) (P : CString) (hc : c ≠ ',') :
    List.splitOn ',' (c :: P) = List.modifyHead (List.cons c) (List.splitOn ',' P) := by
  simp [List.splitOn, List.splitOnP_cons, hc]

theorem splitOn_exists_cons (P : CString) : ∃ h t, List.splitOn ',' P = h :: t := by
  cases hs : List.splitOn ',' P with
  | nil => exact absurd hs (by simp [List.splitOn, List.splitOnP_ne_nil])
  | cons h t => exact ⟨h, t, rfl⟩

theorem cons_prefix_iff_deref (c : Char) (h q : CString) (hc : c ≠ NUL) :
    (c :: h) <+: q ↔ deref q = c ∧ h <+: q.tail := by
  cases q with
  | nil => simp [deref, Ne.symm hc]
  | cons d q =>
    simp only [deref, List.headD_cons, List.tail_cons, List.cons_prefix_cons]
    constructor
    · rintro ⟨rfl, h2⟩; exact ⟨rfl, h2⟩
    · rintro ⟨rfl, h2⟩; exact ⟨rfl, h2⟩

/-- Loop invariant of the scanner: with `h` the element being scanned and `t`
the elements after it, the loop accepts iff the pointer is live and the rest
of `h` is an initial segment of what it points to, or some later element is
an initial segment of the whole category. -/
theorem startswithoneof_loop_spec (str : CString) :
    ∀ (P : CString), NUL ∉ P → ∀ (p : Option CString) (h : CString) (t : List CString),
      List.splitOn ',' P = h :: t →
      (startswithoneof_loop str p P = true ↔
        (∃ q, p = some q ∧ h <+: q) ∨ ∃ e ∈ t, e <+: str) := by
  intro P
  induction P with
  | nil =>
    intro _ p h t hs
    have hnil : h = [] ∧ t = [] := by
      simp [List.splitOn, List.splitOnP_nil] at hs
      exact ⟨hs.1, hs.2⟩
    obtain ⟨rfl, rfl⟩ := hnil
    cases p <;> simp [startswithoneof_loop]
  | cons c P ih =>
    intro hnul p h t hs
    have hc0 : c ≠ NUL := fun e => hnul (by simp [e])
    have hP : NUL ∉ P := fun e => hnul (List.mem_cons_of_mem _ e)
    obtain ⟨h1, t1, hs1⟩ := splitOn_exists_cons P
    by_cases hc : c = ','
    · subst hc
      rw [splitOn_cons_comma, hs1] at hs
      obtain ⟨rfl, rfl⟩ := List.cons.inj hs
      cases p with
      | some q => simp [startswithoneof_loop]
      | none =>
        simp only [startswithoneof_loop, ne_eq, not_true_eq_false, if_false, Option.isSome_none,
          Bool.false_eq_true]
        rw [ih hP (some str) h1 t1 hs1]
        simp
    · rw [splitOn_cons_other c P hc, hs1] at hs
      simp only [List.modifyHead_cons] at hs
      obtain ⟨rfl, rfl⟩ := List.cons.inj hs
      cases p with
      | none =>
        simp only [startswithoneof_loop, ne_eq, hc, not_false_eq_true, if_true]
        rw [ih hP none h1 t1 hs1]
        simp
      | some q =>
        simp only [startswithoneof_loop, ne_eq, hc, not_false_eq_true, if_true]
        by_cases hd : deref q = c
        · simp only [hd, not_true_eq_false, if_false]
          rw [ih hP (some q.tail) h1 t1 hs1]
          simp [cons_prefix_iff_deref c h1 q hc0, hd]
        · simp only [hd, not_false_eq_true, if_true]
          rw [ih hP none h1 t1 hs1]
          simp [cons_prefix_iff_deref c h1 q hc0, hd]

theorem startswithoneof_iff (C P : CString) (hP : NUL ∉ P) :
    startswithoneof C P = true ↔ ∃ e ∈ List.splitOn ',' P, e <+: C := by
  obtain ⟨h, t, hs⟩ := splitOn_exists_cons P
  rw [startswithoneof, startswithoneof_loop_spec C P hP (some C) h t hs, hs]
  simp

theorem matches_some_element_iff (C P : CString) :
    matches_some_element C P = true ↔ ∃ e ∈ List.splitOn ',' P, e <+: C := by
  simp [matches_some_element, List.any_eq_true, List.isPrefixOf_iff_prefix]

/-- C1: for every category `C` and every prefix list `P` (a C string, so
without an embedded NUL), `startswithoneof C P` is true iff `C` starts with
some element of `P` split at every comma, empty elements included; the
single-pass scanner returns the same answer as testing each element of the
list independently. -/
theorem C1_startswithoneof_splits (C P : CString) (hP : NUL ∉ P) :
    (startswithoneof C P = true ↔ ∃ e ∈ List.splitOn ',' P, e <+: C) ∧
      startswithoneof C P = matches_some_element C P := by
  refine ⟨startswithoneof_iff C P hP, ?_⟩
  rw [Bool.eq_iff_iff, startswithoneof_iff C P hP, matches_some_element_iff]

/-- Instance of C1 at the category `foobaz` and the list `foo,bar`. -/
theorem C1_startswithoneof_splits_witness :
    NUL ∉ "foo,bar".toList ∧
      ((startswithoneof "foobaz".toList "foo,bar".toList = true ↔
          ∃ e ∈ List.splitOn ',' "foo,bar".toList, e <+: "foobaz".toList) ∧
        startswithoneof "foobaz".toList "foo,bar".toList =
          matches_some_element "foobaz".toList "foo,bar".toList) :=
  ⟨by decide, C1_startswithoneof_splits "foobaz".toList "foo,bar".toList (by decide)⟩

/-! ## Machine integers -/

theorem shl1_eq (x : Int) : shl1 x = wrapLong (x * 2) := by
  have h := Int.shiftLeft_eq_mul_pow x 1
  have h2 : x <<< (1 : Int) = x * 2 := by simpa using h
  simp only [shl1, h2]

theorem shr1_eq (x : Int) : shr1 x = x / 2 := by
  have h := Int.shiftRight_eq_div_pow x 1
  simpa [shr1] using h

/-- The arithmetic definition of `and1` is the bitwise conjunction with 1. -/
theorem and1_eq_land (x : Int) : and1 x = Int.land x 1 := by
  have h1 : (1 : Int) = Int.bit true 0 := by simp [Int.bit_val]
  have hx : x = Int.bit x.bodd x.div2 := (Int.bit_decomp x).symm
  have h0 : ∀ y : Int, Int.land y 0 = 0 := by
    intro y; cases y <;> simp [Int.land, Nat.ldiff]
  conv_rhs => rw [hx, h1, Int.land_bit, h0]
  unfold and1
  have := Int.bodd_add_div2 x
  cases hb : x.bodd <;> simp [hb, Int.bit_val] at this ⊢ <;> omega

/-- The arithmetic definition of `or1` is the bitwise disjunction with 1. -/
theorem or1_eq_lor (x : Int) : or1 x = Int.lor x 1 := by
  have h1 : (1 : Int) = Int.bit true 0 := by simp [Int.bit_val]
  have hx : x = Int.bit x.bodd x.div2 := (Int.bit_decomp x).symm
  have h0 : ∀ y : Int, Int.lor y 0 = y := by
    intro y; cases y <;> simp [Int.lor, Nat.ldiff]
  conv_rhs => rw [hx, h1, Int.lor_bit, h0]
  unfold or1
  have := Int.bodd_add_div2 x
  cases hb : x.bodd <;> simp [hb, Int.bit_val] at this ⊢ <;> omega

theorem wrapLong_emod (x : Int) (k : Nat) (hk : k ≤ 64) :
    wrapLong x % 2 ^ k = x % 2 ^ k := by
  have hdvd : (2 : Int) ^ k ∣ 2 ^ 64 := pow_dvd_pow 2 hk
  have h63 : (2 : Int) ^ k ∣ 2 ^ 63 ∨ k = 64 := by
    rcases Nat.lt_or_ge k 64 with h | h
    · exact Or.inl (pow_dvd_pow 2 (by omega))
    · exact Or.inr (by omega)
  unfold wrapLong
  have e1 : (x + 2 ^ 63) % 2 ^ 64 = x + 2 ^ 63 - 2 ^ 64 * ((x + 2 ^ 63) / 2 ^ 64) := by
    have := Int.emod_add_ediv (x + 2 ^ 63) (2 ^ 64)
    omega
  rw [e1]
  obtain ⟨c, hc⟩ := hdvd
  have e2 : x + 2 ^ 63 - 2 ^ 64 * ((x + 2 ^ 63) / 2 ^ 64) - 2 ^ 63
      = x + 2 ^ k * (- (c * ((x + 2 ^ 63) / 2 ^ 64))) := by
    rw [hc]; ring
  rw [e2, Int.add_mul_emod_self_left]

theorem bitsVal_bounds (bs : List Bool) : 0 ≤ bitsVal bs ∧ bitsVal bs < 2 ^ bs.length := by
  induction bs with
  | nil => simp [bitsVal]
  | cons b bs ih =>
    simp only [bitsVal, List.length_cons, pow_succ]
    cases b <;> simp <;> omega

/-- Pushing a bit: shifting left, then optionally setting the low bit. -/
theorem push_emod (m : Int) (d : Nat) (hd : d < 64) (b : Bool) :
    (if b then or1 (shl1 m) else shl1 m) % 2 ^ (d + 1)
      = (if b then 1 else 0) + 2 * (m % 2 ^ d) := by
  have hs : shl1 m % 2 ^ (d + 1) = 2 * (m % 2 ^ d) := by
    rw [shl1_eq, wrapLong_emod _ _ (by omega), pow_succ, mul_comm m 2, mul_comm (2 ^ d) 2]
    exact Int.mul_emod_mul_of_pos m (2 ^ d) (by norm_num)
  have hs2 : shl1 m % 2 = 0 := by
    have := wrapLong_emod (m * 2) 1 (by omega)
    rw [shl1_eq]
    simp only [pow_one] at this
    rw [this]; omega
  cases b with
  | false => simpa using hs
  | true =>
    simp only [if_true, or1, hs2]
    have hpos : (0 : Int) < 2 ^ d := by positivity
    have hr0 := Int.emod_nonneg m (ne_of_gt hpos)
    have hr1 := Int.emod_lt_of_pos m hpos
    have hdecomp := Int.emod_add_ediv (shl1 m) (2 ^ (d + 1))
    have e : shl1 m + 1 = (1 + 2 * (m % 2 ^ d)) + 2 ^ (d + 1) * (shl1 m / 2 ^ (d + 1)) := by
      rw [hs] at hdecomp; omega
    rw [e, Int.add_mul_emod_self_left]
    apply Int.emod_eq_of_lt
    · omega
    · rw [pow_succ]; omega

/-- Popping a bit: the low bit is the one pushed last, and the arithmetic
shift right restores the mask below it. -/
theorem pop_emod (m : Int) (d : Nat) (b : Bool) (v : Int)
    (h : m % 2 ^ (d + 1) = (if b then 1 else 0) + 2 * v) :
    and1 m = (if b then 1 else 0) ∧ shr1 m % 2 ^ d = v := by
  have hpos : (0 : Int) < 2 ^ d := by positivity
  have hpos2 : (0 : Int) < 2 ^ (d + 1) := by positivity
  have hr0 := Int.emod_nonneg m (ne_of_gt hpos2)
  have hr1 := Int.emod_lt_of_pos m hpos2
  have hdecomp := Int.emod_add_ediv m (2 ^ (d + 1))
  rw [pow_succ] at hdecomp hr0 hr1 h
  rw [h] at hr0 hr1 hdecomp
  have hb : (if b then (1 : Int) else 0) = 0 ∨ (if b then (1 : Int) else 0) = 1 := by
    cases b <;> simp
  generalize (if b then (1 : Int) else 0) = bb at *
  generalize m / (2 ^ d * 2) = q at *
  constructor
  · unfold and1
    have : m = bb + 2 * (v + 2 ^ d * q) := by rw [← hdecomp]; ring
    omega
  · rw [shr1_eq]
    have e : m / 2 = v + 2 ^ d * q := by
      have : m = bb + 2 * (v + 2 ^ d * q) := by rw [← hdecomp]; ring
      omega
    rw [e, Int.add_mul_emod_self_left]
    apply Int.emod_eq_of_lt <;> omega

/-! ## Effect of the operations on the state -/

theorem written_append (a b : List LibCall) : written (a ++ b) = written a ++ written b := by
  induction a with
  | nil => rfl
  | cons x a ih => cases x <;> simp [written, ih]

theorem open_configured_frame (os : OS) (v : CString) (s : DebugState) :
    (pypy_debug_open_configured os v s).pypy_have_debug_prints = s.pypy_have_debug_prints ∧
    (pypy_debug_open_configured os v s).debug_start_colors_1 = s.debug_start_colors_1 ∧
    (pypy_debug_open_configured os v s).debug_start_colors_2 = s.debug_start_colors_2 ∧
    (pypy_debug_open_configured os v s).threadcounter = s.threadcounter ∧
    written (pypy_debug_open_configured os v s).calls = written s.calls := by
  unfold pypy_debug_open_configured
  cases strchr v ':' <;> simp only <;> split <;> simp [written_append, written]

theorem open_frame (os : OS) (s : DebugState) :
    (pypy_debug_open os s).pypy_have_debug_prints = s.pypy_have_debug_prints ∧
    (pypy_debug_open os s).debug_start_colors_1 = s.debug_start_colors_1 ∧
    (pypy_debug_open os s).debug_start_colors_2 = s.debug_start_colors_2 ∧
    (pypy_debug_open os s).threadcounter = s.threadcounter ∧
    written (pypy_debug_open os s).calls = written s.calls ∧
    (pypy_debug_open os s).debug_ready = true := by
  have hc := open_configured_frame os
  unfold pypy_debug_open
  cases hv : s.PYPYLOG with
  | none => simp only; split_ifs <;> simp_all
  | some v =>
    simp only
    split_ifs <;> simp_all [written_append, written]

theorem ensure_opened_of_ready (os : OS) (s : DebugState) (h : s.debug_ready = true) :
    pypy_debug_ensure_opened os s = s := by
  simp [pypy_debug_ensure_opened, h]

theorem ensure_opened_frame (os : OS) (s : DebugState) :
    (pypy_debug_ensure_opened os s).pypy_have_debug_prints = s.pypy_have_debug_prints ∧
    (pypy_debug_ensure_opened os s).debug_start_colors_1 = s.debug_start_colors_1 ∧
    (pypy_debug_ensure_opened os s).debug_start_colors_2 = s.debug_start_colors_2 ∧
    (pypy_debug_ensure_opened os s).threadcounter = s.threadcounter ∧
    written (pypy_debug_ensure_opened os s).calls = written s.calls ∧
    (pypy_debug_ensure_opened os s).debug_ready = true := by
  unfold pypy_debug_ensure_opened
  by_cases h : s.debug_ready = false
  · simp only [h, if_true]; exact open_frame os s
  · simp only [h, if_false]; simpa using h

theorem prepare_frame (os : OS) (s : DebugState) :
    (_prepare_display_colors os s).pypy_have_debug_prints = s.pypy_have_debug_prints ∧
    (_prepare_display_colors os s).calls = s.calls ∧
    (_prepare_display_colors os s).debug_ready = s.debug_ready ∧
    (_prepare_display_colors os s).debug_profile = s.debug_profile ∧
    DebugState.debug_prefix (_prepare_display_colors os s) = s.debug_prefix ∧
    (_prepare_display_colors os s).pypy_debug_file = s.pypy_debug_file ∧
    (_prepare_display_colors os s).debug_stop_colors = s.debug_stop_colors ∧
    (_prepare_display_colors os s).debug_filename = s.debug_filename ∧
    (_prepare_display_colors os s).debug_filename_with_fork = s.debug_filename_with_fork ∧
    (_prepare_display_colors os s).PYPYLOG = s.PYPYLOG := by
  unfold _prepare_display_colors
  simp only
  split_ifs <;> simp

/-- The opening marker and the frame of the last two statements of
`pypy_debug_start`. -/
theorem start_display_spec (os : OS) (t : Int) (c : CString) (s : DebugState) :
    (pypy_debug_start_display os t c s).calls = s.calls ++
        [LibCall.fprintf s.pypy_debug_file
          ((pypy_debug_start_display os t c s).debug_start_colors_1 ++ "[".toList ++
            fmt_llx t ++ "] \x7b".toList ++ c ++ "\n".toList ++ s.debug_stop_colors)] ∧
    (pypy_debug_start_display os t c s).pypy_have_debug_prints = s.pypy_have_debug_prints ∧
    (pypy_debug_start_display os t c s).debug_ready = s.debug_ready ∧
    (pypy_debug_start_display os t c s).debug_profile = s.debug_profile ∧
    DebugState.debug_prefix (pypy_debug_start_display os t c s) = s.debug_prefix ∧
    (pypy_debug_start_display os t c s).pypy_debug_file = s.pypy_debug_file ∧
    (pypy_debug_start_display os t c s).debug_stop_colors = s.debug_stop_colors := by
  have hp := prepare_frame os s
  unfold pypy_debug_start_display display_startstop
  simp only
  split_ifs <;> simp [hp]

/-- In filtered mode an inactive category only shifts the mask. -/
theorem start_inactive (os : OS) (t : Int) (c : CString) (s : DebugState)
    (hmode : (pypy_debug_ensure_opened os s).debug_profile = false)
    (hact : is_active (pypy_debug_ensure_opened os s) c = false) :
    pypy_debug_start os t c s =
      { pypy_debug_ensure_opened os s with
        pypy_have_debug_prints := shl1 s.pypy_have_debug_prints } := by
  have hf := ensure_opened_frame os s
  unfold pypy_debug_start
  simp only [hmode, hf.1, if_true]
  unfold is_active at hact
  cases hp : DebugState.debug_prefix (pypy_debug_ensure_opened os s) with
  | none => simp
  | some l => rw [hp] at hact; simp only at hact; simp [hact]

/-- In filtered mode an active category sets the low bit and then displays. -/
theorem start_active (os : OS) (t : Int) (c : CString) (s : DebugState)
    (hmode : (pypy_debug_ensure_opened os s).debug_profile = false)
    (hact : is_active (pypy_debug_ensure_opened os s) c = true) :
    pypy_debug_start os t c s =
      pypy_debug_start_display os t c
        { pypy_debug_ensure_opened os s with
          pypy_have_debug_prints := or1 (shl1 s.pypy_have_debug_prints) } := by
  have hf := ensure_opened_frame os s
  unfold pypy_debug_start
  simp only [hmode, hf.1, if_true]
  unfold is_active at hact
  cases hp : DebugState.debug_prefix (pypy_debug_ensure_opened os s) with
  | none => rw [hp] at hact; simp at hact
  | some l => rw [hp] at hact; simp only at hact; simp [hact]

/-- The closing marker and the frame of `pypy_debug_stop`. -/
theorem stop_spec (t : Int) (c : CString) (s : DebugState) :
    (pypy_debug_stop t c s).calls = s.calls ++
        (if s.debug_profile = true ∨ and1 s.pypy_have_debug_prints ≠ 0 then
          [LibCall.fprintf s.pypy_debug_file
            (s.debug_start_colors_2 ++ "[".toList ++ fmt_llx t ++ "] ".toList ++ c ++
              "\x7d\n".toList ++ s.debug_stop_colors)]
        else []) ∧
    (pypy_debug_stop t c s).pypy_have_debug_prints = shr1 s.pypy_have_debug_prints ∧
    (pypy_debug_stop t c s).debug_ready = s.debug_ready ∧
    (pypy_debug_stop t c s).debug_profile = s.debug_profile ∧
    DebugState.debug_prefix (pypy_debug_stop t c s) = s.debug_prefix ∧
    (pypy_debug_stop t c s).pypy_debug_file = s.pypy_debug_file ∧
    (pypy_debug_stop t c s).debug_stop_colors = s.debug_stop_colors := by
  unfold pypy_debug_stop display_startstop
  simp only
  split_ifs <;> simp

/-- Summary of `pypy_debug_start` in filtered mode: the pushed bit, the mask
and whether a marker was written are all decided by `is_active`. -/
theorem start_filtered_summary (os : OS) (t : Int) (c : CString) (s : DebugState)
    (hmode : (pypy_debug_ensure_opened os s).debug_profile = false) :
    (pypy_debug_start os t c s).pypy_have_debug_prints =
        (if is_active (pypy_debug_ensure_opened os s) c then
          or1 (shl1 s.pypy_have_debug_prints) else shl1 s.pypy_have_debug_prints) ∧
    lowBit (pypy_debug_start os t c s) = is_active (pypy_debug_ensure_opened os s) c ∧
    emitted s (pypy_debug_start os t c s) = is_active (pypy_debug_ensure_opened os s) c ∧
    (pypy_debug_start os t c s).debug_ready = true ∧
    (pypy_debug_start os t c s).debug_profile = false := by
  have hf := ensure_opened_frame os s
  have hbit : ∀ b : Bool, and1 (if b then or1 (shl1 s.pypy_have_debug_prints)
      else shl1 s.pypy_have_debug_prints) = if b then 1 else 0 := by
    intro b
    have h := push_emod s.pypy_have_debug_prints 0 (by omega) b
    simp only [zero_add, pow_one, pow_zero, Int.emod_one, mul_zero, add_zero] at h
    exact h
  cases hact : is_active (pypy_debug_ensure_opened os s) c with
  | false =>
    rw [start_inactive os t c s hmode hact]
    have hb := hbit false
    simp only [Bool.false_eq_true, if_false] at hb
    simp [lowBit, emitted, hb, hf, hmode]
  | true =>
    rw [start_active os t c s hmode hact]
    have hd := start_display_spec os t c
      { pypy_debug_ensure_opened os s with
        pypy_have_debug_prints := or1 (shl1 s.pypy_have_debug_prints) }
    have hb := hbit true
    simp only [if_true] at hb
    dsimp only at hd
    obtain ⟨h1, h2, h3, h4, -⟩ := hd
    rw [if_pos rfl]
    refine ⟨h2, ?_, ?_, ?_, ?_⟩
    · unfold lowBit; rw [h2, hb]; decide
    · unfold emitted; rw [h1, written_append, hf.2.2.2.2.1]; simp [written]
    · rw [h3]; exact hf.2.2.2.2.2
    · rw [h4]; exact hmode

/-- Summary of `pypy_debug_stop` in filtered mode: the marker is written iff
the low bit of the mask is set. -/
theorem stop_filtered_summary (t : Int) (c : CString) (s : DebugState)
    (hmode : s.debug_profile = false) :
    emitted s (pypy_debug_stop t c s) = lowBit s := by
  have h := (stop_spec t c s).1
  unfold emitted lowBit
  rw [h, written_append]
  by_cases hb : and1 s.pypy_have_debug_prints ≠ 0
  · simp [hmode, hb, written]
  · simp [hmode, hb, written]

/-- The nesting mask refines an explicit stack of the open sections: as long
as the stack holds at most 63 entries, every matched `stop` finds in the low
bit the bit of the innermost open section. -/
theorem stopViews_matched (os : OS) :
    ∀ (ops : List Op) (stack : List (Bool × Bool)) (s : DebugState),
      (pypy_debug_ensure_opened os s).debug_profile = false →
      (stack ≠ [] → s.debug_ready = true) →
      s.pypy_have_debug_prints % 2 ^ stack.length = bitsVal (stack.map Prod.fst) →
      (∀ e ∈ stack, e.1 = e.2) →
      wellNested 63 stack.length ops = true →
      ∀ v ∈ stopViews os ops stack s, v.seen = v.pushed ∧ v.closed = v.opened := by
  intro ops
  induction ops with
  | nil => intro stack s _ _ _ _ _ v hv; simp [stopViews] at hv
  | cons op ops ih =>
    intro stack s hmode hready hmask hstack hnest v hv
    cases op with
    | start t c =>
      simp only [wellNested, Bool.and_eq_true, decide_eq_true_eq] at hnest
      obtain ⟨hlen, hnest⟩ := hnest
      obtain ⟨hm, hlow, hemit, hrdy, hprof⟩ := start_filtered_summary os t c s hmode
      simp only [stopViews] at hv
      refine ih ((lowBit (pypy_debug_start os t c s),
          emitted s (pypy_debug_start os t c s)) :: stack)
        (pypy_debug_start os t c s) ?_ (fun _ => hrdy) ?_ ?_ hnest v hv
      · rw [ensure_opened_of_ready os _ hrdy]; exact hprof
      · simp only [List.length_cons, List.map_cons, bitsVal]
        rw [hm, hlow, push_emod _ _ (by omega), hmask]
      · intro e he
        rcases List.mem_cons.mp he with rfl | he
        · simp only [hlow, hemit]
        · exact hstack e he
    | stop t c =>
      cases stack with
      | nil => simp [wellNested] at hnest
      | cons top rest =>
        have hrdy : s.debug_ready = true := hready (by simp)
        have hprof : s.debug_profile = false := by
          rw [ensure_opened_of_ready os s hrdy] at hmode; exact hmode
        simp only [List.length_cons, List.map_cons, bitsVal] at hmask
        obtain ⟨hbit, hrest⟩ := pop_emod _ _ _ _ hmask
        obtain ⟨-, hm, hr, hp, -⟩ := stop_spec t c s
        have hseen : lowBit s = top.1 := by
          unfold lowBit; rw [hbit]; cases top.1 <;> simp
        simp only [wellNested, List.length_cons] at hnest
        simp only [stopViews, List.mem_cons] at hv
        rcases hv with rfl | hv
        · refine ⟨hseen, ?_⟩
          simp only [stop_filtered_summary t c s hprof, hseen]
          exact hstack top (by simp)
        · refine ih rest (pypy_debug_stop t c s) ?_ (fun _ => by rw [hr]; exact hrdy) ?_ ?_
            hnest v hv
          · rw [ensure_opened_of_ready os _ (by rw [hr]; exact hrdy), hp]; exact hprof
          · rw [hm]; exact hrest
          · intro e he; exact hstack e (List.mem_cons_of_mem _ he)

theorem stopViews_length (os : OS) (limit : Nat) :
    ∀ (ops : List Op) (stack : List (Bool × Bool)) (s : DebugState),
      wellNested limit stack.length ops = true →
      (stopViews os ops stack s).length = (ops.filter Op.isStop).length := by
  intro ops
  induction ops with
  | nil => intro stack s _; simp [stopViews]
  | cons op ops ih =>
    intro stack s hnest
    cases op with
    | start t c =>
      simp only [wellNested, Bool.and_eq_true, decide_eq_true_eq] at hnest
      simp only [stopViews, Op.isStop, List.filter_cons, Bool.false_eq_true, if_false]
      exact ih ((lowBit (pypy_debug_start os t c s),
        emitted s (pypy_debug_start os t c s)) :: stack) _ (by simpa using hnest.2)
    | stop t c =>
      cases stack with
      | nil => simp [wellNested] at hnest
      | cons top rest =>
        simp only [wellNested, List.length_cons] at hnest
        simp only [stopViews, Op.isStop, List.filter_cons, if_true, List.length_cons]
        rw [ih rest _ hnest]

/-- C2: in filtered mode, along every well-nested sequence of
`pypy_debug_start` / `pypy_debug_stop` calls of nesting depth at most 63,
every `pypy_debug_stop` is matched, sees as the low bit of
`pypy_have_debug_prints` exactly the bit its matching `pypy_debug_start`
pushed, and writes a closing marker iff that start wrote an opening marker. -/
theorem C2_stop_sees_bit_of_matching_start (os : OS) (s : DebugState) (ops : List Op)
    (hmode : (pypy_debug_ensure_opened os s).debug_profile = false)
    (hnest : wellNested 63 0 ops = true) :
    (stopViews os ops [] s).length = (ops.filter Op.isStop).length ∧
      ∀ v ∈ stopViews os ops [] s, v.seen = v.pushed ∧ v.closed = v.opened :=
  ⟨stopViews_length os 63 ops [] s hnest,
    stopViews_matched os ops [] s hmode (fun h => absurd rfl h) (by simp [bitsVal])
      (fun _ he => by simp at he) hnest⟩

/-- Instance of C2: with `PYPYLOG=a:-`, section `a` (active) encloses section
`b` (inactive). -/
theorem C2_stop_sees_bit_of_matching_start_witness :
    (pypy_debug_ensure_opened plainOS (initial (some "a:-".toList))).debug_profile = false ∧
    wellNested 63 0
      [Op.start 1 "a".toList, Op.start 2 "b".toList, Op.stop 3 "b".toList,
        Op.stop 4 "a".toList] = true ∧
    ((stopViews plainOS
        [Op.start 1 "a".toList, Op.start 2 "b".toList, Op.stop 3 "b".toList,
          Op.stop 4 "a".toList] [] (initial (some "a:-".toList))).length =
        ([Op.start 1 "a".toList, Op.start 2 "b".toList, Op.stop 3 "b".toList,
          Op.stop 4 "a".toList].filter Op.isStop).length ∧
      ∀ v ∈ stopViews plainOS
          [Op.start 1 "a".toList, Op.start 2 "b".toList, Op.stop 3 "b".toList,
            Op.stop 4 "a".toList] [] (initial (some "a:-".toList)),
        v.seen = v.pushed ∧ v.closed = v.opened) :=
  ⟨by decide, by decide,
    C2_stop_sees_bit_of_matching_start plainOS (initial (some "a:-".toList))
      [Op.start 1 "a".toList, Op.start 2 "b".toList, Op.stop 3 "b".toList,
        Op.stop 4 "a".toList] (by decide) (by decide)⟩

/-! ## Sections in filtered mode -/

theorem is_active_iff (s : DebugState) (c : CString) :
    is_active s c = true ↔
      ∃ list, s.debug_prefix = some list ∧ startswithoneof c list = true := by
  unfold is_active
  cases s.debug_prefix <;> simp

theorem open_mask_irrelevant (os : OS) (s : DebugState) (m : Int) :
    pypy_debug_open os { s with pypy_have_debug_prints := m } =
      { pypy_debug_open os s with pypy_have_debug_prints := m } := by
  obtain ⟨m0, f, r, p, c1, c2, sc, pre, fn, fnf, tc, env, calls⟩ := s
  cases env with
  | none =>
    cases f <;> simp [pypy_debug_open]
  | some v =>
    by_cases hd : deref v = NUL
    · cases f <;> simp [pypy_debug_open, hd]
    · cases hcol : strchr v ':' with
      | none =>
        by_cases hdash : v = ['-']
        · cases f <;>
            simp [pypy_debug_open, pypy_debug_open_configured, hd, hcol, eq_true hdash]
        · cases hf : fopen os v <;>
            simp [pypy_debug_open, pypy_debug_open_configured, hd, hcol, hdash, hf]
      | some n =>
        by_cases hdash : v.drop (n + 1) = ['-']
        · cases f <;>
            simp [pypy_debug_open, pypy_debug_open_configured, hd, hcol, eq_true hdash]
        · cases hf : fopen os (v.drop (n + 1)) <;>
            simp [pypy_debug_open, pypy_debug_open_configured, hd, hcol, hdash, hf]

theorem ensure_opened_mask_irrelevant (os : OS) (s : DebugState) (m : Int) :
    pypy_debug_ensure_opened os { s with pypy_have_debug_prints := m } =
      { pypy_debug_ensure_opened os s with pypy_have_debug_prints := m } := by
  unfold pypy_debug_ensure_opened
  dsimp only
  split_ifs
  · exact open_mask_irrelevant os s m
  · rfl

/-- Without a prefix list, filtered mode writes nothing along a well-nested
sequence of calls. -/
theorem runOps_silent (os : OS) :
    ∀ (ops : List Op) (d : Nat) (s : DebugState),
      (pypy_debug_ensure_opened os s).debug_profile = false →
      DebugState.debug_prefix (pypy_debug_ensure_opened os s) = none →
      (0 < d → s.debug_ready = true) →
      s.pypy_have_debug_prints % 2 ^ d = 0 →
      wellNested 63 d ops = true →
      written (runOps os ops s).calls = written s.calls := by
  intro ops
  induction ops with
  | nil => intro d s _ _ _ _ _; rfl
  | cons op ops ih =>
    intro d s hmode hpre hready hmask hnest
    cases op with
    | start t c =>
      simp only [wellNested, Bool.and_eq_true, decide_eq_true_eq] at hnest
      obtain ⟨hlen, hnest⟩ := hnest
      have hact : is_active (pypy_debug_ensure_opened os s) c = false := by
        unfold is_active; rw [hpre]
      have hf := ensure_opened_frame os s
      have hstart := start_inactive os t c s hmode hact
      simp only [runOps, Op.run]
      rw [hstart]
      have hrdy : ({ pypy_debug_ensure_opened os s with
          pypy_have_debug_prints := shl1 s.pypy_have_debug_prints } : DebugState).debug_ready
            = true := hf.2.2.2.2.2
      rw [ih (d + 1) _ (by rw [ensure_opened_of_ready os _ hrdy]; exact hmode)
        (by rw [ensure_opened_of_ready os _ hrdy]; exact hpre) (fun _ => hrdy) ?_ hnest]
      · exact hf.2.2.2.2.1
      · have h := push_emod s.pypy_have_debug_prints d (by omega) false
        simp only [Bool.false_eq_true, if_false, zero_add] at h
        show shl1 s.pypy_have_debug_prints % 2 ^ (d + 1) = 0
        rw [h, hmask]; rfl
    | stop t c =>
      cases d with
      | zero => simp [wellNested] at hnest
      | succ d =>
        have hrdy : s.debug_ready = true := hready (by omega)
        have hprof : s.debug_profile = false := by
          rw [ensure_opened_of_ready os s hrdy] at hmode; exact hmode
        have hpre2 : s.debug_prefix = none := by
          rw [ensure_opened_of_ready os s hrdy] at hpre; exact hpre
        obtain ⟨hbit, hrest⟩ := pop_emod s.pypy_have_debug_prints d false 0
          (by simpa using hmask)
        obtain ⟨hc, hm, hr, hp, hx, -⟩ := stop_spec t c s
        simp only [wellNested] at hnest
        simp only [runOps, Op.run]
        have hrdy2 : (pypy_debug_stop t c s).debug_ready = true := by rw [hr]; exact hrdy
        rw [ih d _ (by rw [ensure_opened_of_ready os _ hrdy2, hp]; exact hprof)
          (by rw [ensure_opened_of_ready os _ hrdy2, hx]; exact hpre2) (fun _ => hrdy2)
          (by rw [hm]; exact hrest) hnest]
        rw [hc]
        simp only [Bool.false_eq_true, if_false] at hbit
        simp [hprof, hbit]

theorem ensure_opened_unconfigured (os : OS) (env : Option CString)
    (henv : env = none ∨ env = some []) :
    (pypy_debug_ensure_opened os (initial env)).debug_profile = false ∧
      DebugState.debug_prefix (pypy_debug_ensure_opened os (initial env)) = none := by
  rcases henv with rfl | rfl <;>
    simp [pypy_debug_ensure_opened, pypy_debug_open, initial, deref]

/-- C3: in non-profiling mode `pypy_debug_start` shifts the mask left by one;
exactly when a prefix list is configured and `startswithoneof` accepts the
category it then sets the low bit and writes the opening marker, otherwise
the low bit stays 0 and nothing is written. The decision is the same for
every value of the mask. With `PYPYLOG` unset or empty, no call of a
well-nested sequence writes a marker. -/
theorem C3_start_filtered_decision (os : OS) (t : Int) (c : CString) (s : DebugState)
    (hmode : (pypy_debug_ensure_opened os s).debug_profile = false) :
    (is_active (pypy_debug_ensure_opened os s) c = true ↔
      ∃ list, DebugState.debug_prefix (pypy_debug_ensure_opened os s) = some list ∧
        startswithoneof c list = true) ∧
    (is_active (pypy_debug_ensure_opened os s) c = true →
      (pypy_debug_start os t c s).pypy_have_debug_prints =
          or1 (shl1 s.pypy_have_debug_prints) ∧
        and1 (pypy_debug_start os t c s).pypy_have_debug_prints = 1 ∧
        (pypy_debug_start os t c s).calls = (pypy_debug_ensure_opened os s).calls ++
          [LibCall.fprintf (pypy_debug_ensure_opened os s).pypy_debug_file
            ((pypy_debug_start os t c s).debug_start_colors_1 ++ "[".toList ++ fmt_llx t ++
              "] \x7b".toList ++ c ++ "\n".toList ++
              (pypy_debug_ensure_opened os s).debug_stop_colors)]) ∧
    (is_active (pypy_debug_ensure_opened os s) c = false →
      (pypy_debug_start os t c s).pypy_have_debug_prints = shl1 s.pypy_have_debug_prints ∧
        and1 (pypy_debug_start os t c s).pypy_have_debug_prints = 0 ∧
        (pypy_debug_start os t c s).calls = (pypy_debug_ensure_opened os s).calls) ∧
    (∀ m : Int,
      is_active (pypy_debug_ensure_opened os { s with pypy_have_debug_prints := m }) c =
        is_active (pypy_debug_ensure_opened os s) c) ∧
    (∀ (env : Option CString) (ops : List Op), (env = none ∨ env = some []) →
      wellNested 63 0 ops = true → written (runOps os ops (initial env)).calls = []) := by
  have hsum := start_filtered_summary os t c s hmode
  refine ⟨is_active_iff _ c, ?_, ?_, ?_, ?_⟩
  · intro hact
    obtain ⟨hm, hlow, -⟩ := hsum
    rw [hact] at hm hlow
    simp only [if_true] at hm
    refine ⟨hm, ?_, ?_⟩
    · have h2 := Int.emod_two_eq (pypy_debug_start os t c s).pypy_have_debug_prints
      unfold lowBit at hlow
      simp only [decide_eq_true_eq] at hlow
      unfold and1 at hlow ⊢
      omega
    · have hd := (start_display_spec os t c
        { pypy_debug_ensure_opened os s with
          pypy_have_debug_prints := or1 (shl1 s.pypy_have_debug_prints) }).1
      rw [← start_active os t c s hmode hact] at hd
      exact hd
  · intro hact
    obtain ⟨hm, hlow, -⟩ := hsum
    rw [hact] at hm hlow
    simp only [Bool.false_eq_true, if_false] at hm
    refine ⟨hm, ?_, ?_⟩
    · unfold lowBit at hlow
      simpa using hlow
    · rw [start_inactive os t c s hmode hact]
  · intro m
    rw [ensure_opened_mask_irrelevant]
    rfl
  · intro env ops henv hnest
    obtain ⟨h1, h2⟩ := ensure_opened_unconfigured os env henv
    rw [runOps_silent os ops 0 (initial env) h1 h2 (fun h => absurd h (by omega))
      (by simp) hnest]
    rcases henv with rfl | rfl <;> rfl

/-- Instance of C3: with `PYPYLOG=a:-`, starting the category `a` from the
initial state. -/
theorem C3_start_filtered_decision_witness :
    (pypy_debug_ensure_opened plainOS (initial (some "a:-".toList))).debug_profile = false ∧
    ((is_active (pypy_debug_ensure_opened plainOS (initial (some "a:-".toList))) "a".toList
        = true ↔
      ∃ list, DebugState.debug_prefix (pypy_debug_ensure_opened plainOS (initial (some "a:-".toList)))
          = some list ∧ startswithoneof "a".toList list = true) ∧
    (is_active (pypy_debug_ensure_opened plainOS (initial (some "a:-".toList))) "a".toList
        = true →
      (pypy_debug_start plainOS 255 "a".toList
          (initial (some "a:-".toList))).pypy_have_debug_prints =
          or1 (shl1 (initial (some "a:-".toList)).pypy_have_debug_prints) ∧
        and1 (pypy_debug_start plainOS 255 "a".toList
          (initial (some "a:-".toList))).pypy_have_debug_prints = 1 ∧
        (pypy_debug_start plainOS 255 "a".toList (initial (some "a:-".toList))).calls =
          (pypy_debug_ensure_opened plainOS (initial (some "a:-".toList))).calls ++
          [LibCall.fprintf
            (pypy_debug_ensure_opened plainOS (initial (some "a:-".toList))).pypy_debug_file
            ((pypy_debug_start plainOS 255 "a".toList
                (initial (some "a:-".toList))).debug_start_colors_1 ++ "[".toList ++
              fmt_llx 255 ++ "] \x7b".toList ++ "a".toList ++ "\n".toList ++
              (pypy_debug_ensure_opened plainOS
                (initial (some "a:-".toList))).debug_stop_colors)]) ∧
    (is_active (pypy_debug_ensure_opened plainOS (initial (some "a:-".toList))) "a".toList
        = false →
      (pypy_debug_start plainOS 255 "a".toList
          (initial (some "a:-".toList))).pypy_have_debug_prints =
          shl1 (initial (some "a:-".toList)).pypy_have_debug_prints ∧
        and1 (pypy_debug_start plainOS 255 "a".toList
          (initial (some "a:-".toList))).pypy_have_debug_prints = 0 ∧
        (pypy_debug_start plainOS 255 "a".toList (initial (some "a:-".toList))).calls =
          (pypy_debug_ensure_opened plainOS (initial (some "a:-".toList))).calls) ∧
    (∀ m : Int,
      is_active (pypy_debug_ensure_opened plainOS
          { initial (some "a:-".toList) with pypy_have_debug_prints := m }) "a".toList =
        is_active (pypy_debug_ensure_opened plainOS (initial (some "a:-".toList)))
          "a".toList) ∧
    (∀ (env : Option CString) (ops : List Op), (env = none ∨ env = some []) →
      wellNested 63 0 ops = true → written (runOps plainOS ops (initial env)).calls = [])) :=
  ⟨by decide,
    C3_start_filtered_decision plainOS 255 "a".toList (initial (some "a:-".toList))
      (by decide)⟩

/-! ## Marker text -/

theorem digitChar_hex (k : Nat) (hk : k < 16) :
    Nat.digitChar k ∈ hexAlphabet ∧ hexAlphabet.indexOf (Nat.digitChar k) = k ∧
      (k ≠ 0 → Nat.digitChar k ≠ '0') := by
  interval_cases k <;> decide

theorem hexValue_append_singleton (L : CString) (d : Char) :
    hexValue (L ++ [d]) = 16 * hexValue L + hexAlphabet.indexOf d := by
  simp [hexValue, List.foldl_append]

/-- The digits `Nat.toDigitsCore` puts in front of its accumulator, in base
16 and with enough fuel: lowercase hexadecimal digits that denote the number,
without a leading zero. -/
theorem toDigitsCore_hex :
    ∀ (fuel n : Nat) (ds : CString), n < fuel →
      ∃ L : CString, Nat.toDigitsCore 16 fuel n ds = L ++ ds ∧
        (∀ ch ∈ L, ch ∈ hexAlphabet) ∧ hexValue L = n ∧
        (n ≠ 0 → L.head? ≠ some '0') ∧ (n = 0 → L = ['0']) := by
  intro fuel
  induction fuel with
  | zero => intro n ds h; omega
  | succ fuel ih =>
    intro n ds hn
    obtain ⟨hmem, hidx, hne⟩ := digitChar_hex (n % 16) (Nat.mod_lt _ (by norm_num))
    by_cases h0 : n / 16 = 0
    · have hlt : n < 16 := by omega
      have hmod : n % 16 = n := Nat.mod_eq_of_lt hlt
      rw [hmod] at hmem hidx hne
      refine ⟨[Nat.digitChar n], ?_, ?_, ?_, ?_, ?_⟩
      · simp [Nat.toDigitsCore, h0, hmod]
      · intro ch hch; simp at hch; rw [hch]; exact hmem
      · simp [hexValue, hidx]
      · intro hn0; simpa using hne hn0
      · intro hn0; subst hn0; rfl
    · obtain ⟨L, hL, hall, hval, hhead, -⟩ :=
        ih (n / 16) (Nat.digitChar (n % 16) :: ds) (by omega)
      refine ⟨L ++ [Nat.digitChar (n % 16)], ?_, ?_, ?_, ?_, ?_⟩
      · simp [Nat.toDigitsCore, h0, hL]
      · intro ch hch
        rcases List.mem_append.mp hch with h | h
        · exact hall ch h
        · simp at h; rw [h]; exact hmem
      · rw [hexValue_append_singleton, hval, hidx]; omega
      · intro _
        have := hhead h0
        cases L with
        | nil => simp [hexValue] at hval; omega
        | cons a L => simpa using this
      · intro hn0; omega

/-- The model of `%llx` prints the value modulo 2^64 in lowercase hexadecimal
digits, without padding. -/
theorem fmt_llx_hex (t : Int) :
    (∀ ch ∈ fmt_llx t, ch ∈ hexAlphabet) ∧
      (hexValue (fmt_llx t) : Int) = t % 2 ^ 64 ∧
      (fmt_llx t).head? ≠ none ∧
      ((fmt_llx t).head? = some '0' → fmt_llx t = ['0']) := by
  obtain ⟨L, hL, hall, hval, hhead, hzero⟩ :=
    toDigitsCore_hex ((t % 2 ^ 64).toNat + 1) (t % 2 ^ 64).toNat [] (by omega)
  have hfmt : fmt_llx t = L := by
    simp only [fmt_llx, Nat.toDigits]; rw [hL]; simp
  have hnn : 0 ≤ t % 2 ^ 64 := Int.emod_nonneg _ (by norm_num)
  rw [hfmt]
  refine ⟨hall, ?_, ?_, ?_⟩
  · rw [hval]; exact Int.toNat_of_nonneg hnn
  · by_cases h0 : (t % 2 ^ 64).toNat = 0
    · rw [hzero h0]; simp
    · intro hnone
      cases L with
      | nil => simp [hexValue] at hval; omega
      | cons a L => simp at hnone
  · intro h
    by_cases h0 : (t % 2 ^ 64).toNat = 0
    · exact hzero h0
    · exact absurd h (hhead h0)

/-- In profiling mode `pypy_debug_start` shifts the mask and displays. -/
theorem start_profile (os : OS) (t : Int) (c : CString) (s : DebugState)
    (hmode : (pypy_debug_ensure_opened os s).debug_profile = true) :
    pypy_debug_start os t c s =
      pypy_debug_start_display os t c
        { pypy_debug_ensure_opened os s with
          pypy_have_debug_prints := shl1 s.pypy_have_debug_prints } := by
  have hf := ensure_opened_frame os s
  unfold pypy_debug_start
  simp [hmode, hf.1]

/-- The library calls of `pypy_debug_start`: those of the initialisation, then
the opening marker if the mode is profiling or the category is active. -/
theorem start_calls (os : OS) (t : Int) (c : CString) (s : DebugState) :
    (pypy_debug_start os t c s).calls = (pypy_debug_ensure_opened os s).calls ++
      (if (pypy_debug_ensure_opened os s).debug_profile = true ∨
          is_active (pypy_debug_ensure_opened os s) c = true then
        [LibCall.fprintf (pypy_debug_ensure_opened os s).pypy_debug_file
          ((pypy_debug_start os t c s).debug_start_colors_1 ++ "[".toList ++ fmt_llx t ++
            "] ".toList ++ "\x7b".toList ++ c ++ [] ++ "\n".toList ++
            (pypy_debug_ensure_opened os s).debug_stop_colors)]
      else []) := by
  cases hmode : (pypy_debug_ensure_opened os s).debug_profile with
  | true =>
    have hd := (start_display_spec os t c
      { pypy_debug_ensure_opened os s with
        pypy_have_debug_prints := shl1 s.pypy_have_debug_prints }).1
    rw [← start_profile os t c s hmode] at hd
    rw [hd]
    simp
  | false =>
    cases hact : is_active (pypy_debug_ensure_opened os s) c with
    | true =>
      have hd := (start_display_spec os t c
        { pypy_debug_ensure_opened os s with
          pypy_have_debug_prints := or1 (shl1 s.pypy_have_debug_prints) }).1
      rw [← start_active os t c s hmode hact] at hd
      rw [hd]
      simp
    | false =>
      rw [start_inactive os t c s hmode hact]
      simp

/-- C4: `display_startstop` writes exactly
`<colors>[<timestamp in hexadecimal>] <prefix><category><postfix>`, a newline
and `debug_stop_colors`; whenever `pypy_debug_start` writes, the text is that
with `debug_start_colors_1`, prefix `\x7b` and empty postfix; whenever
`pypy_debug_stop` writes, it is that with `debug_start_colors_2`, empty prefix
and postfix `\x7d`. The timestamp is printed modulo 2^64 in lowercase
hexadecimal digits without a leading zero. -/
theorem C4_marker_text (os : OS) (t : Int) (pfx sfx c colors : CString) (s : DebugState) :
    display_startstop t pfx sfx c colors s =
      { s with
        calls := s.calls ++
          [LibCall.fprintf s.pypy_debug_file
            (colors ++ "[".toList ++ fmt_llx t ++ "] ".toList ++ pfx ++ c ++ sfx ++
              "\n".toList ++ s.debug_stop_colors)] } ∧
    (pypy_debug_start os t c s).calls = (pypy_debug_ensure_opened os s).calls ++
      (if (pypy_debug_ensure_opened os s).debug_profile = true ∨
          is_active (pypy_debug_ensure_opened os s) c = true then
        [LibCall.fprintf (pypy_debug_ensure_opened os s).pypy_debug_file
          ((pypy_debug_start os t c s).debug_start_colors_1 ++ "[".toList ++ fmt_llx t ++
            "] ".toList ++ "\x7b".toList ++ c ++ [] ++ "\n".toList ++
            (pypy_debug_ensure_opened os s).debug_stop_colors)]
      else []) ∧
    (pypy_debug_stop t c s).calls = s.calls ++
      (if s.debug_profile = true ∨ and1 s.pypy_have_debug_prints ≠ 0 then
        [LibCall.fprintf s.pypy_debug_file
          (s.debug_start_colors_2 ++ "[".toList ++ fmt_llx t ++ "] ".toList ++ [] ++ c ++
            "\x7d".toList ++ "\n".toList ++ s.debug_stop_colors)]
      else []) ∧
    ((∀ ch ∈ fmt_llx t, ch ∈ hexAlphabet) ∧ (hexValue (fmt_llx t) : Int) = t % 2 ^ 64 ∧
      ((fmt_llx t).head? ≠ some '0' ∨ fmt_llx t = ['0'])) ∧
    fmt_llx 0 = "0".toList ∧ fmt_llx 255 = "ff".toList ∧
    fmt_llx 1311768467463790320 = "123456789abcdef0".toList ∧
    fmt_llx (-1) = "ffffffffffffffff".toList := by
  have hhex := fmt_llx_hex t
  refine ⟨rfl, ?_, ?_, ⟨hhex.1, hhex.2.1, ?_⟩, by decide, by decide, by decide, by decide⟩
  rotate_left 2
  · by_cases h : (fmt_llx t).head? = some '0'
    · exact Or.inr (hhex.2.2.2 h)
    · exact Or.inl h
  · exact start_calls os t c s
  · rw [(stop_spec t c s).1]
    split_ifs <;> simp

/-! ## Fork handling -/

theorem file_content_append (path : CString) (a b : List LibCall) (acc : CString) :
    file_content path (a ++ b) acc = file_content path b (file_content path a acc) := by
  induction a generalizing acc with
  | nil => rfl
  | cons x a ih =>
    cases x <;> simp only [List.cons_append, file_content] <;> try exact ih _
    all_goals split_ifs <;> exact ih _

/-- The state `pypy_debug_forked` leaves when the facility is file-backed and
the new file is allocated and opened. -/
theorem forked_file_backed (os : OS) (offset : Int) (s : DebugState) (root : CString)
    (hfile : s.debug_filename = some root)
    (halloc : os.malloc_ok (root.length + 32) = true)
    (hopen : os.fopen_ok (root ++ ".fork".toList ++ fmt_d os.getpid) = true) :
    pypy_debug_forked os offset s =
      { s with
        pypy_debug_file := some (FILE.opened (root ++ ".fork".toList ++ fmt_d os.getpid))
        debug_filename_with_fork := some (root ++ ".fork".toList ++ fmt_d os.getpid)
        calls := s.calls ++
          [LibCall.fclose s.pypy_debug_file,
            LibCall.fopen_w (root ++ ".fork".toList ++ fmt_d os.getpid)
              (some (FILE.opened (root ++ ".fork".toList ++ fmt_d os.getpid))),
            LibCall.fprintf (some (FILE.opened (root ++ ".fork".toList ++ fmt_d os.getpid)))
              ("FORKED: ".toList ++ fmt_d offset ++ " ".toList ++
                s.debug_filename_with_fork.getD root ++ "\n".toList)] } := by
  unfold pypy_debug_forked
  rw [hfile]
  simp only [halloc, fopen, hopen, if_true]
  cases s.debug_filename_with_fork <;> simp

/-- C5: when the facility is file-backed and the new file is allocated and
opened, `pypy_debug_forked(offset)` closes the stream and makes it a new file
named `<debug_filename>.fork<pid>`, whose whole content is then the line
`FORKED: <offset> <predecessor>`, the predecessor being the name derived at
the previous fork if any and `debug_filename` otherwise; the new name becomes
the predecessor, `debug_filename` is kept, and a second fork again derives its
name from `debug_filename` and names the first fork's file as predecessor.
Numbers are printed in decimal: process 1234 forking from `out.log` at offset
42 writes `FORKED: 42 out.log` to `out.log.fork1234`. -/
theorem C5_forked_reopens (os : OS) (offset : Int) (s : DebugState) (root : CString)
    (hfile : s.debug_filename = some root)
    (halloc : os.malloc_ok (root.length + 32) = true)
    (hopen : os.fopen_ok (root ++ ".fork".toList ++ fmt_d os.getpid) = true) :
    (pypy_debug_forked os offset s).pypy_debug_file =
        some (FILE.opened (root ++ ".fork".toList ++ fmt_d os.getpid)) ∧
    (pypy_debug_forked os offset s).calls = s.calls ++
        [LibCall.fclose s.pypy_debug_file,
          LibCall.fopen_w (root ++ ".fork".toList ++ fmt_d os.getpid)
            (some (FILE.opened (root ++ ".fork".toList ++ fmt_d os.getpid))),
          LibCall.fprintf (some (FILE.opened (root ++ ".fork".toList ++ fmt_d os.getpid)))
            ("FORKED: ".toList ++ fmt_d offset ++ " ".toList ++
              (match s.debug_filename_with_fork with
                | some previous => previous
                | none => root) ++ "\n".toList)] ∧
    file_content (root ++ ".fork".toList ++ fmt_d os.getpid)
        (pypy_debug_forked os offset s).calls [] =
      "FORKED: ".toList ++ fmt_d offset ++ " ".toList ++
        (match s.debug_filename_with_fork with
          | some previous => previous
          | none => root) ++ "\n".toList ∧
    (pypy_debug_forked os offset s).debug_filename_with_fork =
        some (root ++ ".fork".toList ++ fmt_d os.getpid) ∧
    (pypy_debug_forked os offset s).debug_filename = some root ∧
    (∀ (os2 : OS) (offset2 : Int), os2.malloc_ok (root.length + 32) = true →
      os2.fopen_ok (root ++ ".fork".toList ++ fmt_d os2.getpid) = true →
      (pypy_debug_forked os2 offset2 (pypy_debug_forked os offset s)).pypy_debug_file =
          some (FILE.opened (root ++ ".fork".toList ++ fmt_d os2.getpid)) ∧
        written (pypy_debug_forked os2 offset2 (pypy_debug_forked os offset s)).calls =
          written (pypy_debug_forked os offset s).calls ++
            ["FORKED: ".toList ++ fmt_d offset2 ++ " ".toList ++
              (root ++ ".fork".toList ++ fmt_d os.getpid) ++ "\n".toList]) ∧
    ("out.log".toList ++ ".fork".toList ++ fmt_d 1234 = "out.log.fork1234".toList ∧
      "FORKED: ".toList ++ fmt_d 42 ++ " ".toList ++ "out.log".toList ++ "\n".toList =
        "FORKED: 42 out.log\n".toList ∧
      fmt_d (-7) = "-7".toList ∧ fmt_d 0 = "0".toList) := by
  have h := forked_file_backed os offset s root hfile halloc hopen
  have hpred : (match s.debug_filename_with_fork with
      | some previous => previous
      | none => root) = s.debug_filename_with_fork.getD root := by
    cases s.debug_filename_with_fork <;> rfl
  rw [hpred]
  refine ⟨by rw [h], by rw [h], ?_, by rw [h], by rw [h]; exact hfile, ?_,
    by decide, by decide, by decide, by decide⟩
  · rw [h]
    simp only [file_content_append]
    simp [file_content]
  · intro os2 offset2 halloc2 hopen2
    have hfile2 : (pypy_debug_forked os offset s).debug_filename = some root := by
      rw [h]; exact hfile
    have h2 := forked_file_backed os2 offset2 (pypy_debug_forked os offset s) root hfile2
      halloc2 hopen2
    have hfork : (pypy_debug_forked os offset s).debug_filename_with_fork =
        some (root ++ ".fork".toList ++ fmt_d os.getpid) := by rw [h]
    rw [hfork] at h2
    rw [h2]
    simp [written_append, written]

/-- Instance of C5: first fork of process 1234 at offset 42 after `PYPYLOG=a:out.log`. -/
theorem C5_forked_reopens_witness :
    tracingToOutLog.debug_filename = some "out.log".toList ∧
    plainOS.malloc_ok ("out.log".toList.length + 32) = true ∧
    plainOS.fopen_ok ("out.log".toList ++ ".fork".toList ++ fmt_d plainOS.getpid) = true ∧
    ((pypy_debug_forked plainOS 42 tracingToOutLog).pypy_debug_file =
        some (FILE.opened ("out.log".toList ++ ".fork".toList ++ fmt_d plainOS.getpid)) ∧
    (pypy_debug_forked plainOS 42 tracingToOutLog).calls = tracingToOutLog.calls ++
        [LibCall.fclose tracingToOutLog.pypy_debug_file,
          LibCall.fopen_w ("out.log".toList ++ ".fork".toList ++ fmt_d plainOS.getpid)
            (some (FILE.opened ("out.log".toList ++ ".fork".toList ++ fmt_d plainOS.getpid))),
          LibCall.fprintf (some (FILE.opened ("out.log".toList ++ ".fork".toList ++ fmt_d plainOS.getpid)))
            ("FORKED: ".toList ++ fmt_d 42 ++ " ".toList ++
              (match tracingToOutLog.debug_filename_with_fork with
                | some previous => previous
                | none => "out.log".toList) ++ "\n".toList)] ∧
    file_content ("out.log".toList ++ ".fork".toList ++ fmt_d plainOS.getpid)
        (pypy_debug_forked plainOS 42 tracingToOutLog).calls [] =
      "FORKED: ".toList ++ fmt_d 42 ++ " ".toList ++
        (match tracingToOutLog.debug_filename_with_fork with
          | some previous => previous
          | none => "out.log".toList) ++ "\n".toList ∧
    (pypy_debug_forked plainOS 42 tracingToOutLog).debug_filename_with_fork =
        some ("out.log".toList ++ ".fork".toList ++ fmt_d plainOS.getpid) ∧
    (pypy_debug_forked plainOS 42 tracingToOutLog).debug_filename = some "out.log".toList ∧
    (∀ (os2 : OS) (offset2 : Int), os2.malloc_ok ("out.log".toList.length + 32) = true →
      os2.fopen_ok ("out.log".toList ++ ".fork".toList ++ fmt_d os2.getpid) = true →
      (pypy_debug_forked os2 offset2 (pypy_debug_forked plainOS 42 tracingToOutLog)).pypy_debug_file =
          some (FILE.opened ("out.log".toList ++ ".fork".toList ++ fmt_d os2.getpid)) ∧
        written (pypy_debug_forked os2 offset2 (pypy_debug_forked plainOS 42 tracingToOutLog)).calls =
          written (pypy_debug_forked plainOS 42 tracingToOutLog).calls ++
            ["FORKED: ".toList ++ fmt_d offset2 ++ " ".toList ++
              ("out.log".toList ++ ".fork".toList ++ fmt_d plainOS.getpid) ++ "\n".toList]) ∧
    ("out.log".toList ++ ".fork".toList ++ fmt_d 1234 = "out.log.fork1234".toList ∧
      "FORKED: ".toList ++ fmt_d 42 ++ " ".toList ++ "out.log".toList ++ "\n".toList =
        "FORKED: 42 out.log\n".toList ∧
      fmt_d (-7) = "-7".toList ∧ fmt_d 0 = "0".toList)) :=
  ⟨by decide, by decide, by decide,
    C5_forked_reopens plainOS 42 tracingToOutLog "out.log".toList (by decide) (by decide) (by decide)⟩

/-! ## Initialisation from `PYPYLOG` -/

theorem strchr_none (v : CString) (c : Char) (h : c ∉ v) : strchr v c = none := by
  induction v with
  | nil => rfl
  | cons d v ih =>
    have hd : d ≠ c := fun e => h (by simp [e])
    have hv : c ∉ v := fun e => h (List.mem_cons_of_mem _ e)
    simp [strchr, hd, ih hv]

theorem strchr_first (pre post : CString) (c : Char) (h : c ∉ pre) :
    strchr (pre ++ c :: post) c = some pre.length := by
  induction pre with
  | nil => simp [strchr]
  | cons d pre ih =>
    have hd : d ≠ c := fun e => h (by simp [e])
    have hv : c ∉ pre := fun e => h (List.mem_cons_of_mem _ e)
    simp [strchr, hd, ih hv]

theorem deref_ne_NUL (v : CString) (hne : v ≠ []) (hnul : NUL ∉ v) : deref v ≠ NUL := by
  cases v with
  | nil => exact absurd rfl hne
  | cons d v => intro e; exact hnul (by simp [deref] at e; simp [e])

/-- Result of `pypy_debug_open` for a value `pre:post` of `PYPYLOG`, where
`pre` holds no colon. -/
theorem open_with_colon (os : OS) (s : DebugState) (pre post : CString)
    (hpre : ':' ∉ pre) (hnul : NUL ∉ pre)
    (henv : s.PYPYLOG = some (pre ++ ':' :: post)) :
    pypy_debug_open os s =
      if post = "-".toList then
        { s with
          debug_prefix := some pre
          pypy_debug_file :=
            if s.pypy_debug_file = none then some FILE.stderr else s.pypy_debug_file
          debug_stop_colors :=
            if s.pypy_debug_file = none ∧ os.isatty_2 = true then "\x1b[0m".toList
            else s.debug_stop_colors
          PYPYLOG := none
          calls := s.calls ++ [LibCall.unsetenv_PYPYLOG]
          debug_ready := true }
      else
        { s with
          debug_prefix := some pre
          debug_filename := some post
          pypy_debug_file :=
            if os.fopen_ok post = true then some (FILE.opened post) else some FILE.stderr
          debug_stop_colors :=
            if os.fopen_ok post = false ∧ os.isatty_2 = true then "\x1b[0m".toList
            else s.debug_stop_colors
          PYPYLOG := none
          calls := s.calls ++ [LibCall.fopen_w post (fopen os post), LibCall.unsetenv_PYPYLOG]
          debug_ready := true } := by
  obtain ⟨m0, f, r, p, c1, c2, sc, pfx, fn, fnf, tc, env, calls⟩ := s
  simp only at henv
  subst henv
  have hd : deref (pre ++ ':' :: post) ≠ NUL := by
    cases pre with
    | nil => simp [deref, NUL]
    | cons d pre =>
      intro e
      exact hnul (by simp [deref] at e; simp [e])
  have hcol := strchr_first pre post ':' hpre
  by_cases hdash : post = ['-']
  · cases f <;> cases hi : os.isatty_2 <;>
      simp [pypy_debug_open, pypy_debug_open_configured, hd, hcol, eq_true hdash, hi]
  · cases hf : os.fopen_ok post <;> cases hi : os.isatty_2 <;>
      simp [pypy_debug_open, pypy_debug_open_configured, hd, hcol, hdash, hf, hi, fopen]

/-- Result of `pypy_debug_open` for a non-empty value of `PYPYLOG` without a
colon. -/
theorem open_without_colon (os : OS) (s : DebugState) (v : CString)
    (hne : v ≠ []) (hcolon : ':' ∉ v) (hnul : NUL ∉ v) (henv : s.PYPYLOG = some v) :
    pypy_debug_open os s =
      if v = "-".toList then
        { s with
          debug_profile := true
          pypy_debug_file :=
            if s.pypy_debug_file = none then some FILE.stderr else s.pypy_debug_file
          debug_stop_colors :=
            if s.pypy_debug_file = none ∧ os.isatty_2 = true then "\x1b[0m".toList
            else s.debug_stop_colors
          PYPYLOG := none
          calls := s.calls ++ [LibCall.pypy_setup_profiling, LibCall.unsetenv_PYPYLOG]
          debug_ready := true }
      else
        { s with
          debug_profile := true
          debug_filename := some v
          pypy_debug_file :=
            if os.fopen_ok v = true then some (FILE.opened v) else some FILE.stderr
          debug_stop_colors :=
            if os.fopen_ok v = false ∧ os.isatty_2 = true then "\x1b[0m".toList
            else s.debug_stop_colors
          PYPYLOG := none
          calls := s.calls ++
            [LibCall.pypy_setup_profiling, LibCall.fopen_w v (fopen os v),
              LibCall.unsetenv_PYPYLOG]
          debug_ready := true } := by
  obtain ⟨m0, f, r, p, c1, c2, sc, pfx, fn, fnf, tc, env, calls⟩ := s
  simp only at henv
  subst henv
  have hd := deref_ne_NUL v hne hnul
  have hcol := strchr_none v ':' hcolon
  by_cases hdash : v = ['-']
  · cases f <;> cases hi : os.isatty_2 <;>
      simp [pypy_debug_open, pypy_debug_open_configured, hd, hcol, eq_true hdash, hi]
  · cases hf : os.fopen_ok v <;> cases hi : os.isatty_2 <;>
      simp [pypy_debug_open, pypy_debug_open_configured, hd, hcol, hdash, hf, hi, fopen]

/-- Counterexample to C6 as stated: with `PYPYLOG=foo:-` no file is opened
although the value is non-empty and holds a colon: the only call is `unsetenv`
and the stream is standard error. -/
theorem C6_dash_counterexample :
    "foo:-".toList ≠ [] ∧ ':' ∈ "foo:-".toList ∧
    (pypy_debug_open plainOS (initial (some "foo:-".toList))).calls =
      [LibCall.unsetenv_PYPYLOG] ∧
    (¬ ∃ result, LibCall.fopen_w "-".toList result ∈
      (pypy_debug_open plainOS (initial (some "foo:-".toList))).calls) ∧
    (pypy_debug_open plainOS (initial (some "foo:-".toList))).pypy_debug_file =
      some FILE.stderr := by
  have h : (pypy_debug_open plainOS (initial (some "foo:-".toList))).calls =
      [LibCall.unsetenv_PYPYLOG] := by decide
  refine ⟨by decide, by decide, h, ?_, by decide⟩
  rw [h]
  simp

/-- C6 (amended): for every value `pre:post` of `PYPYLOG` (`pre` without a
colon), `pypy_debug_open` leaves `debug_profile` as it was and does not
install the profiling hook, sets `debug_prefix` to exactly `pre`, and, unless
`post` is exactly `-`, records `post` as `debug_filename` and opens it for
writing; when `post` is `-` no file is opened. With `foo,bar:out.log` the
list is `foo,bar`, the file `out.log`, and `foobaz` and `barish` are active
while `baz` is not. -/
theorem C6_open_prefix_and_file (os : OS) (s : DebugState) (pre post : CString)
    (hpre : ':' ∉ pre) (hnul : NUL ∉ pre ++ ':' :: post)
    (henv : s.PYPYLOG = some (pre ++ ':' :: post)) :
    (pypy_debug_open os s).debug_profile = s.debug_profile ∧
    LibCall.pypy_setup_profiling ∉ (pypy_debug_open os s).calls.drop s.calls.length ∧
    DebugState.debug_prefix (pypy_debug_open os s) = some pre ∧
    (post ≠ "-".toList →
      (pypy_debug_open os s).calls = s.calls ++
          [LibCall.fopen_w post (fopen os post), LibCall.unsetenv_PYPYLOG] ∧
        (pypy_debug_open os s).debug_filename = some post ∧
        (os.fopen_ok post = true →
          (pypy_debug_open os s).pypy_debug_file = some (FILE.opened post))) ∧
    (post = "-".toList →
      (pypy_debug_open os s).calls = s.calls ++ [LibCall.unsetenv_PYPYLOG] ∧
        (pypy_debug_open os s).debug_filename = s.debug_filename) ∧
    ( DebugState.debug_prefix (pypy_debug_open os (initial (some "foo,bar:out.log".toList))) =
        some "foo,bar".toList ∧
      (pypy_debug_open os (initial (some "foo,bar:out.log".toList))).calls =
        [LibCall.fopen_w "out.log".toList (fopen os "out.log".toList),
          LibCall.unsetenv_PYPYLOG] ∧
      is_active (pypy_debug_open os (initial (some "foo,bar:out.log".toList)))
        "foobaz".toList = true ∧
      is_active (pypy_debug_open os (initial (some "foo,bar:out.log".toList)))
        "barish".toList = true ∧
      is_active (pypy_debug_open os (initial (some "foo,bar:out.log".toList)))
        "baz".toList = false) := by
  have hnul1 : NUL ∉ pre := fun e => hnul (List.mem_append_left _ e)
  have h := open_with_colon os s pre post hpre hnul1 henv
  have hex := open_with_colon os (initial (some "foo,bar:out.log".toList))
    "foo,bar".toList "out.log".toList (by decide) (by decide) rfl
  rw [if_neg (by decide)] at hex
  refine ⟨?_, ?_, ?_, ?_, ?_, ?_⟩
  · rw [h]; split_ifs <;> rfl
  · rw [h]; split_ifs <;> simp
  · rw [h]; split_ifs <;> rfl
  · intro hpost
    rw [h, if_neg hpost]
    refine ⟨rfl, rfl, ?_⟩
    intro hok
    simp [hok]
  · intro hpost
    rw [h, if_pos hpost]
    exact ⟨rfl, rfl⟩
  · rw [hex]
    refine ⟨rfl, rfl, ?_, ?_, ?_⟩ <;> (simp only [is_active]; decide)

/-- Instance of C6 at `PYPYLOG=foo,bar:out.log` from the initial state. -/
theorem C6_open_prefix_and_file_witness :
    ':' ∉ "foo,bar".toList ∧
    NUL ∉ "foo,bar".toList ++ ':' :: "out.log".toList ∧
    (initial (some "foo,bar:out.log".toList)).PYPYLOG = some ("foo,bar".toList ++ ':' :: "out.log".toList) ∧
    ((pypy_debug_open plainOS (initial (some "foo,bar:out.log".toList))).debug_profile = (initial (some "foo,bar:out.log".toList)).debug_profile ∧
    LibCall.pypy_setup_profiling ∉ (pypy_debug_open plainOS (initial (some "foo,bar:out.log".toList))).calls.drop (initial (some "foo,bar:out.log".toList)).calls.length ∧
    DebugState.debug_prefix (pypy_debug_open plainOS (initial (some "foo,bar:out.log".toList))) = some "foo,bar".toList ∧
    ("out.log".toList ≠ "-".toList →
      (pypy_debug_open plainOS (initial (some "foo,bar:out.log".toList))).calls = (initial (some "foo,bar:out.log".toList)).calls ++
          [LibCall.fopen_w "out.log".toList (fopen plainOS "out.log".toList), LibCall.unsetenv_PYPYLOG] ∧
        (pypy_debug_open plainOS (initial (some "foo,bar:out.log".toList))).debug_filename = some "out.log".toList ∧
        (plainOS.fopen_ok "out.log".toList = true →
          (pypy_debug_open plainOS (initial (some "foo,bar:out.log".toList))).pypy_debug_file = some (FILE.opened "out.log".toList))) ∧
    ("out.log".toList = "-".toList →
      (pypy_debug_open plainOS (initial (some "foo,bar:out.log".toList))).calls = (initial (some "foo,bar:out.log".toList)).calls ++ [LibCall.unsetenv_PYPYLOG] ∧
        (pypy_debug_open plainOS (initial (some "foo,bar:out.log".toList))).debug_filename = (initial (some "foo,bar:out.log".toList)).debug_filename) ∧
    ( DebugState.debug_prefix (pypy_debug_open plainOS (initial (some "foo,bar:out.log".toList))) =
        some "foo,bar".toList ∧
      (pypy_debug_open plainOS (initial (some "foo,bar:out.log".toList))).calls =
        [LibCall.fopen_w "out.log".toList (fopen plainOS "out.log".toList),
          LibCall.unsetenv_PYPYLOG] ∧
      is_active (pypy_debug_open plainOS (initial (some "foo,bar:out.log".toList)))
        "foobaz".toList = true ∧
      is_active (pypy_debug_open plainOS (initial (some "foo,bar:out.log".toList)))
        "barish".toList = true ∧
      is_active (pypy_debug_open plainOS (initial (some "foo,bar:out.log".toList)))
        "baz".toList = false)) :=
  ⟨by decide, by decide, by decide,
    C6_open_prefix_and_file plainOS (initial (some "foo,bar:out.log".toList)) "foo,bar".toList "out.log".toList (by decide) (by decide) (by decide)⟩

/-- Counterexample to C7 as stated: with `PYPYLOG=out.log` (no colon) and a
working `fopen`, the named file is opened for writing and becomes the stream. -/
theorem C7_bare_filename_counterexample :
    "out.log".toList ≠ [] ∧ ':' ∉ "out.log".toList ∧
    (pypy_debug_open plainOS (initial (some "out.log".toList))).debug_profile = true ∧
    (pypy_debug_open plainOS (initial (some "out.log".toList))).calls =
      [LibCall.pypy_setup_profiling,
        LibCall.fopen_w "out.log".toList (some (FILE.opened "out.log".toList)),
        LibCall.unsetenv_PYPYLOG] ∧
    (pypy_debug_open plainOS (initial (some "out.log".toList))).pypy_debug_file =
      some (FILE.opened "out.log".toList) ∧
    ¬ ((¬ ∃ result, LibCall.fopen_w "out.log".toList result ∈
          (pypy_debug_open plainOS (initial (some "out.log".toList))).calls) ∧
        (pypy_debug_open plainOS (initial (some "out.log".toList))).pypy_debug_file ≠
          some (FILE.opened "out.log".toList)) := by
  have hfile : (pypy_debug_open plainOS (initial (some "out.log".toList))).pypy_debug_file =
      some (FILE.opened "out.log".toList) := by decide
  exact ⟨by decide, by decide, by decide, by decide, hfile, fun h => h.2 hfile⟩

/-- C7 (amended): when `PYPYLOG` is a non-empty value without a colon,
`pypy_debug_open` sets `debug_profile`, installs the profiling hook and leaves
`debug_prefix` as it was; unless the value is exactly `-`, it then records the
value as `debug_filename` and opens that file for writing, and the stream is
that file when the open succeeds and standard error otherwise. -/
theorem C7_open_profiling (os : OS) (s : DebugState) (v : CString)
    (hne : v ≠ []) (hcolon : ':' ∉ v) (hnul : NUL ∉ v) (henv : s.PYPYLOG = some v) :
    (pypy_debug_open os s).debug_profile = true ∧
    LibCall.pypy_setup_profiling ∈ (pypy_debug_open os s).calls ∧
    DebugState.debug_prefix (pypy_debug_open os s) = s.debug_prefix ∧
    (v ≠ "-".toList →
      (pypy_debug_open os s).calls = s.calls ++
          [LibCall.pypy_setup_profiling, LibCall.fopen_w v (fopen os v),
            LibCall.unsetenv_PYPYLOG] ∧
        (pypy_debug_open os s).debug_filename = some v ∧
        (pypy_debug_open os s).pypy_debug_file =
          (if os.fopen_ok v = true then some (FILE.opened v) else some FILE.stderr)) := by
  have h := open_without_colon os s v hne hcolon hnul henv
  refine ⟨?_, ?_, ?_, ?_⟩
  · rw [h]; split_ifs <;> rfl
  · rw [h]; split_ifs <;> simp
  · rw [h]; split_ifs <;> rfl
  · intro hv
    rw [h, if_neg hv]
    exact ⟨rfl, rfl, rfl⟩

/-- Instance of C7 at `PYPYLOG=out.log` from the initial state. -/
theorem C7_open_profiling_witness :
    "out.log".toList ≠ [] ∧
    ':' ∉ "out.log".toList ∧
    NUL ∉ "out.log".toList ∧
    (initial (some "out.log".toList)).PYPYLOG = some "out.log".toList ∧
    ((pypy_debug_open plainOS (initial (some "out.log".toList))).debug_profile = true ∧
    LibCall.pypy_setup_profiling ∈ (pypy_debug_open plainOS (initial (some "out.log".toList))).calls ∧
    DebugState.debug_prefix (pypy_debug_open plainOS (initial (some "out.log".toList))) = DebugState.debug_prefix (initial (some "out.log".toList)) ∧
    ("out.log".toList ≠ "-".toList →
      (pypy_debug_open plainOS (initial (some "out.log".toList))).calls = (initial (some "out.log".toList)).calls ++
          [LibCall.pypy_setup_profiling, LibCall.fopen_w "out.log".toList (fopen plainOS "out.log".toList),
            LibCall.unsetenv_PYPYLOG] ∧
        (pypy_debug_open plainOS (initial (some "out.log".toList))).debug_filename = some "out.log".toList ∧
        (pypy_debug_open plainOS (initial (some "out.log".toList))).pypy_debug_file =
          (if plainOS.fopen_ok "out.log".toList = true then some (FILE.opened "out.log".toList) else some FILE.stderr))) :=
  ⟨by decide, by decide, by decide, by decide,
    C7_open_profiling plainOS (initial (some "out.log".toList)) "out.log".toList (by decide) (by decide) (by decide) (by decide)⟩

/-- C8: whenever the filename part of `PYPYLOG` is exactly `-` (the whole
value, or the part after the first colon), `pypy_debug_open`, entered with no
stream and no recorded filename, calls no `fopen`, leaves `debug_filename`
NULL, makes standard error the stream, and a later `pypy_debug_forked` does
nothing. -/
theorem C8_dash_means_stderr (os : OS) (s : DebugState) (v : CString)
    (hfile : s.pypy_debug_file = none) (hname : s.debug_filename = none)
    (henv : s.PYPYLOG = some v)
    (hdash : v = "-".toList ∨
      ∃ pre : CString, ':' ∉ pre ∧ NUL ∉ pre ∧ v = pre ++ ":-".toList) :
    (∀ path result, LibCall.fopen_w path result ∈ (pypy_debug_open os s).calls →
      LibCall.fopen_w path result ∈ s.calls) ∧
    (pypy_debug_open os s).debug_filename = none ∧
    (pypy_debug_open os s).pypy_debug_file = some FILE.stderr ∧
    (∀ (os2 : OS) (offset : Int),
      pypy_debug_forked os2 offset (pypy_debug_open os s) = pypy_debug_open os s) := by
  have key : (pypy_debug_open os s).debug_filename = none ∧
      (pypy_debug_open os s).pypy_debug_file = some FILE.stderr ∧
      ∀ path result, LibCall.fopen_w path result ∈ (pypy_debug_open os s).calls →
        LibCall.fopen_w path result ∈ s.calls := by
    rcases hdash with rfl | ⟨pre, hpre, hnul, rfl⟩
    · rw [open_without_colon os s "-".toList (by decide) (by decide) (by decide) henv,
        if_pos rfl]
      refine ⟨hname, by simp [hfile], ?_⟩
      intro path result hmem
      simpa using hmem
    · rw [open_with_colon os s pre "-".toList hpre hnul henv, if_pos rfl]
      refine ⟨hname, by simp [hfile], ?_⟩
      intro path result hmem
      simpa using hmem
  refine ⟨key.2.2, key.1, key.2.1, ?_⟩
  intro os2 offset
  unfold pypy_debug_forked
  rw [key.1]

/-- Instance of C8 at `PYPYLOG=a:-` from the initial state. -/
theorem C8_dash_means_stderr_witness :
    (initial (some "a:-".toList)).pypy_debug_file = none ∧
    (initial (some "a:-".toList)).debug_filename = none ∧
    (initial (some "a:-".toList)).PYPYLOG = some "a:-".toList ∧
    ("a:-".toList = "-".toList ∨
      ∃ pre : CString, ':' ∉ pre ∧ NUL ∉ pre ∧ "a:-".toList = pre ++ ":-".toList) ∧
    ((∀ path result,
        LibCall.fopen_w path result ∈
          (pypy_debug_open plainOS (initial (some "a:-".toList))).calls →
        LibCall.fopen_w path result ∈ (initial (some "a:-".toList)).calls) ∧
      (pypy_debug_open plainOS (initial (some "a:-".toList))).debug_filename = none ∧
      (pypy_debug_open plainOS (initial (some "a:-".toList))).pypy_debug_file =
        some FILE.stderr ∧
      (∀ (os2 : OS) (offset : Int),
        pypy_debug_forked os2 offset (pypy_debug_open plainOS (initial (some "a:-".toList))) =
          pypy_debug_open plainOS (initial (some "a:-".toList)))) :=
  ⟨by decide, by decide, by decide, Or.inr ⟨"a".toList, by decide, by decide, by decide⟩,
    C8_dash_means_stderr plainOS (initial (some "a:-".toList)) "a:-".toList (by decide)
      (by decide) (by decide) (Or.inr ⟨"a".toList, by decide, by decide, by decide⟩)⟩

/-- C9: `pypy_debug_offset` called while `debug_ready` is 0 returns -1 and
leaves the whole state, the log of library calls included, as it was: no
`fflush`, no `ftell`. -/
theorem C9_offset_before_init (os : OS) (s : DebugState) (h : s.debug_ready = false) :
    pypy_debug_offset os s = (-1, s) := by
  simp [pypy_debug_offset, h]

/-- Instance of C9 at the initial state. -/
theorem C9_offset_before_init_witness :
    (initial none).debug_ready = false ∧
      pypy_debug_offset plainOS (initial none) = (-1, initial none) :=
  ⟨by decide, C9_offset_before_init plainOS (initial none) (by decide)⟩

/-! ## Failure to open the trace file -/

/-- Counterexample to C10 as stated: with `PYPYLOG=a:/nonexistent/trace.log`
and a failing `fopen`, the stream is standard error, the offset query returns
what `ftell` reports for it, and the marker of the active section `a` is
written. -/
theorem C10_open_failure_counterexample :
    fopen failingFopenOS "/nonexistent/trace.log".toList = none ∧
    (pypy_debug_ensure_opened failingFopenOS
      (initial (some "a:/nonexistent/trace.log".toList))).pypy_debug_file =
        some FILE.stderr ∧
    (pypy_debug_offset failingFopenOS
      (pypy_debug_ensure_opened failingFopenOS
        (initial (some "a:/nonexistent/trace.log".toList)))).1 = 17 ∧
    (pypy_debug_start failingFopenOS 255 "a".toList
      (pypy_debug_ensure_opened failingFopenOS
        (initial (some "a:/nonexistent/trace.log".toList)))).calls =
      [LibCall.fopen_w "/nonexistent/trace.log".toList none, LibCall.unsetenv_PYPYLOG,
        LibCall.fprintf (some FILE.stderr) "0# [ff] \x7ba\n".toList] ∧
    ¬ ((pypy_debug_ensure_opened failingFopenOS
          (initial (some "a:/nonexistent/trace.log".toList))).pypy_debug_file = none ∧
        (pypy_debug_offset failingFopenOS
          (pypy_debug_ensure_opened failingFopenOS
            (initial (some "a:/nonexistent/trace.log".toList)))).1 = -1 ∧
        written (pypy_debug_start failingFopenOS 255 "a".toList
          (pypy_debug_ensure_opened failingFopenOS
            (initial (some "a:/nonexistent/trace.log".toList)))).calls = []) := by
  refine ⟨by decide, by decide, by decide, by decide, ?_⟩
  intro h
  exact absurd h.1 (by decide)

/-- C10 (amended): when the configured trace file cannot be opened during
initialisation, the stream falls back to standard error and the filename
stays recorded; `pypy_debug_offset` then flushes standard error and returns
what `ftell` reports for it, and `pypy_debug_start` and `pypy_debug_stop`
write their markers to standard error. -/
theorem C10_open_failure_falls_back (os : OS) (s : DebugState) (v file : CString)
    (hready : s.debug_ready = false) (henv : s.PYPYLOG = some v) (hnul : NUL ∉ v)
    (hshape : (v ≠ [] ∧ ':' ∉ v ∧ file = v) ∨
      ∃ pre : CString, ':' ∉ pre ∧ v = pre ++ ':' :: file)
    (hdash : file ≠ "-".toList) (hfail : os.fopen_ok file = false) :
    (pypy_debug_ensure_opened os s).pypy_debug_file = some FILE.stderr ∧
    (pypy_debug_ensure_opened os s).debug_filename = some file ∧
    LibCall.fopen_w file none ∈ (pypy_debug_ensure_opened os s).calls ∧
    pypy_debug_offset os (pypy_debug_ensure_opened os s) =
      (os.ftell (some FILE.stderr),
        { pypy_debug_ensure_opened os s with
          calls := (pypy_debug_ensure_opened os s).calls ++
            [LibCall.fflush (some FILE.stderr), LibCall.ftell (some FILE.stderr)] }) ∧
    (∀ (t : Int) (c : CString),
      (pypy_debug_start os t c (pypy_debug_ensure_opened os s)).calls =
        (pypy_debug_ensure_opened os s).calls ++
          (if (pypy_debug_ensure_opened os s).debug_profile = true ∨
              is_active (pypy_debug_ensure_opened os s) c = true then
            [LibCall.fprintf (some FILE.stderr)
              ((pypy_debug_start os t c
                  (pypy_debug_ensure_opened os s)).debug_start_colors_1 ++
                "[".toList ++ fmt_llx t ++ "] \x7b".toList ++ c ++ "\n".toList ++
                (pypy_debug_ensure_opened os s).debug_stop_colors)]
          else []) ∧
      (pypy_debug_stop t c (pypy_debug_ensure_opened os s)).calls =
        (pypy_debug_ensure_opened os s).calls ++
          (if (pypy_debug_ensure_opened os s).debug_profile = true ∨
              and1 (pypy_debug_ensure_opened os s).pypy_have_debug_prints ≠ 0 then
            [LibCall.fprintf (some FILE.stderr)
              ((pypy_debug_ensure_opened os s).debug_start_colors_2 ++ "[".toList ++
                fmt_llx t ++ "] ".toList ++ c ++ "\x7d\n".toList ++
                (pypy_debug_ensure_opened os s).debug_stop_colors)]
          else [])) := by
  have hrdy := (ensure_opened_frame os s).2.2.2.2.2
  have hopen : (pypy_debug_ensure_opened os s).pypy_debug_file = some FILE.stderr ∧
      (pypy_debug_ensure_opened os s).debug_filename = some file ∧
      LibCall.fopen_w file none ∈ (pypy_debug_ensure_opened os s).calls := by
    have he : pypy_debug_ensure_opened os s = pypy_debug_open os s := by
      simp [pypy_debug_ensure_opened, hready]
    rw [he]
    rcases hshape with ⟨hne, hcolon, rfl⟩ | ⟨pre, hpre, rfl⟩
    · rw [open_without_colon os s file hne hcolon hnul henv, if_neg hdash]
      simp [hfail, fopen]
    · have hnul1 : NUL ∉ pre := fun e => hnul (List.mem_append_left _ e)
      rw [open_with_colon os s pre file hpre hnul1 henv, if_neg hdash]
      simp [hfail, fopen]
  obtain ⟨hfile, hname, hcall⟩ := hopen
  refine ⟨hfile, hname, hcall, ?_, ?_⟩
  · simp [pypy_debug_offset, hrdy, hfile]
  · intro t c
    constructor
    · have h := start_calls os t c (pypy_debug_ensure_opened os s)
      rw [ensure_opened_of_ready os _ hrdy, hfile] at h
      rw [h]
      simp
    · rw [(stop_spec t c _).1, hfile]

/-- Instance of C10 at `PYPYLOG=a:/nonexistent/trace.log` with a failing `fopen`. -/
theorem C10_open_failure_falls_back_witness :
    (initial (some "a:/nonexistent/trace.log".toList)).debug_ready = false ∧
    (initial (some "a:/nonexistent/trace.log".toList)).PYPYLOG = some "a:/nonexistent/trace.log".toList ∧
    NUL ∉ "a:/nonexistent/trace.log".toList ∧
    (("a:/nonexistent/trace.log".toList ≠ [] ∧ ':' ∉ "a:/nonexistent/trace.log".toList ∧ "/nonexistent/trace.log".toList = "a:/nonexistent/trace.log".toList) ∨
      ∃ pre : CString, ':' ∉ pre ∧ "a:/nonexistent/trace.log".toList = pre ++ ':' :: "/nonexistent/trace.log".toList) ∧
    "/nonexistent/trace.log".toList ≠ "-".toList ∧
    failingFopenOS.fopen_ok "/nonexistent/trace.log".toList = false ∧
    ((pypy_debug_ensure_opened failingFopenOS (initial (some "a:/nonexistent/trace.log".toList))).pypy_debug_file = some FILE.stderr ∧
    (pypy_debug_ensure_opened failingFopenOS (initial (some "a:/nonexistent/trace.log".toList))).debug_filename = some "/nonexistent/trace.log".toList ∧
    LibCall.fopen_w "/nonexistent/trace.log".toList none ∈ (pypy_debug_ensure_opened failingFopenOS (initial (some "a:/nonexistent/trace.log".toList))).calls ∧
    pypy_debug_offset failingFopenOS (pypy_debug_ensure_opened failingFopenOS (initial (some "a:/nonexistent/trace.log".toList))) =
      (failingFopenOS.ftell (some FILE.stderr),
        { pypy_debug_ensure_opened failingFopenOS (initial (some "a:/nonexistent/trace.log".toList)) with
          calls := (pypy_debug_ensure_opened failingFopenOS (initial (some "a:/nonexistent/trace.log".toList))).calls ++
            [LibCall.fflush (some FILE.stderr), LibCall.ftell (some FILE.stderr)] }) ∧
    (∀ (t : Int) (c : CString),
      (pypy_debug_start failingFopenOS t c (pypy_debug_ensure_opened failingFopenOS (initial (some "a:/nonexistent/trace.log".toList)))).calls =
        (pypy_debug_ensure_opened failingFopenOS (initial (some "a:/nonexistent/trace.log".toList))).calls ++
          (if (pypy_debug_ensure_opened failingFopenOS (initial (some "a:/nonexistent/trace.log".toList))).debug_profile = true ∨
              is_active (pypy_debug_ensure_opened failingFopenOS (initial (some "a:/nonexistent/trace.log".toList))) c = true then
            [LibCall.fprintf (some FILE.stderr)
              ((pypy_debug_start failingFopenOS t c
                  (pypy_debug_ensure_opened failingFopenOS (initial (some "a:/nonexistent/trace.log".toList)))).debug_start_colors_1 ++
                "[".toList ++ fmt_llx t ++ "] \x7b".toList ++ c ++ "\n".toList ++
                (pypy_debug_ensure_opened failingFopenOS (initial (some "a:/nonexistent/trace.log".toList))).debug_stop_colors)]
          else []) ∧
      (pypy_debug_stop t c (pypy_debug_ensure_opened failingFopenOS (initial (some "a:/nonexistent/trace.log".toList)))).calls =
        (pypy_debug_ensure_opened failingFopenOS (initial (some "a:/nonexistent/trace.log".toList))).calls ++
          (if (pypy_debug_ensure_opened failingFopenOS (initial (some "a:/nonexistent/trace.log".toList))).debug_profile = true ∨
              and1 (pypy_debug_ensure_opened failingFopenOS (initial (some "a:/nonexistent/trace.log".toList))).pypy_have_debug_prints ≠ 0 then
            [LibCall.fprintf (some FILE.stderr)
              ((pypy_debug_ensure_opened failingFopenOS (initial (some "a:/nonexistent/trace.log".toList))).debug_start_colors_2 ++ "[".toList ++
                fmt_llx t ++ "] ".toList ++ c ++ "\x7d\n".toList ++
                (pypy_debug_ensure_opened failingFopenOS (initial (some "a:/nonexistent/trace.log".toList))).debug_stop_colors)]
          else []))) :=
  ⟨by decide, by decide, by decide, (Or.inr ⟨"a".toList, by decide, by decide⟩), by decide, by decide,
    C10_open_failure_falls_back failingFopenOS (initial (some "a:/nonexistent/trace.log".toList)) "a:/nonexistent/trace.log".toList "/nonexistent/trace.log".toList (by decide) (by decide) (by decide)
      (Or.inr ⟨"a".toList, by decide, by decide⟩) (by decide) (by decide)⟩

/-! ## Empty prefix list -/

/-- Counterexample to C11 as stated: with `PYPYLOG=:out.log` the prefix list
is the empty string, the filter accepts the category `gc`, and
`pypy_debug_start` pushes a 1 bit and writes the opening marker. -/
theorem C11_empty_prefix_counterexample :
    DebugState.debug_prefix
        (pypy_debug_ensure_opened plainOS (initial (some ":out.log".toList))) = some [] ∧
    startswithoneof "gc".toList [] = true ∧
    and1 (pypy_debug_start plainOS 255 "gc".toList
      (initial (some ":out.log".toList))).pypy_have_debug_prints = 1 ∧
    (pypy_debug_start plainOS 255 "gc".toList (initial (some ":out.log".toList))).calls =
      [LibCall.fopen_w "out.log".toList (some (FILE.opened "out.log".toList)),
        LibCall.unsetenv_PYPYLOG,
        LibCall.fprintf (some (FILE.opened "out.log".toList)) "0# [ff] \x7bgc\n".toList] ∧
    ¬ (startswithoneof "gc".toList [] = false ∧
        and1 (pypy_debug_start plainOS 255 "gc".toList
          (initial (some ":out.log".toList))).pypy_have_debug_prints = 0 ∧
        written (pypy_debug_start plainOS 255 "gc".toList
          (initial (some ":out.log".toList))).calls = []) := by
  refine ⟨by decide, by decide, by decide, by decide, ?_⟩
  intro h
  exact absurd h.1 (by decide)

/-- C11 (amended): when nothing stands before the colon (`PYPYLOG=:filename`),
`debug_prefix` is the empty string, not NULL; the filter accepts every
category, so in non-profiling mode `pypy_debug_start` pushes a 1 bit and
writes the opening marker for every category. -/
theorem C11_empty_prefix_matches_all (os : OS) (s : DebugState) (post : CString)
    (hready : s.debug_ready = false) (hmode : s.debug_profile = false)
    (henv : s.PYPYLOG = some (':' :: post)) :
    DebugState.debug_prefix (pypy_debug_ensure_opened os s) = some [] ∧
    (∀ c : CString, startswithoneof c [] = true) ∧
    (∀ (t : Int) (c : CString),
      (pypy_debug_start os t c s).pypy_have_debug_prints =
          or1 (shl1 s.pypy_have_debug_prints) ∧
        and1 (pypy_debug_start os t c s).pypy_have_debug_prints = 1 ∧
        (pypy_debug_start os t c s).calls = (pypy_debug_ensure_opened os s).calls ++
          [LibCall.fprintf (pypy_debug_ensure_opened os s).pypy_debug_file
            ((pypy_debug_start os t c s).debug_start_colors_1 ++ "[".toList ++ fmt_llx t ++
              "] \x7b".toList ++ c ++ "\n".toList ++
              (pypy_debug_ensure_opened os s).debug_stop_colors)]) := by
  have he : pypy_debug_ensure_opened os s = pypy_debug_open os s := by
    simp [pypy_debug_ensure_opened, hready]
  have hopen := open_with_colon os s [] post (by simp) (by simp) henv
  have hpre : DebugState.debug_prefix (pypy_debug_ensure_opened os s) = some [] := by
    rw [he, hopen]; split_ifs <;> rfl
  have hprof : (pypy_debug_ensure_opened os s).debug_profile = false := by
    rw [he, hopen]; split_ifs <;> exact hmode
  have hall : ∀ c : CString, startswithoneof c [] = true := fun c => rfl
  refine ⟨hpre, hall, ?_⟩
  intro t c
  have hact : is_active (pypy_debug_ensure_opened os s) c = true := by
    unfold is_active; rw [hpre]; exact hall c
  obtain ⟨hm, hlow, -⟩ := start_filtered_summary os t c s hprof
  rw [hact] at hm hlow
  simp only [if_true] at hm
  refine ⟨hm, ?_, ?_⟩
  · have h2 := Int.emod_two_eq (pypy_debug_start os t c s).pypy_have_debug_prints
    unfold lowBit at hlow
    simp only [decide_eq_true_eq] at hlow
    unfold and1 at hlow ⊢
    omega
  · have h := start_calls os t c s
    rw [hprof, hact] at h
    rw [h]
    simp

/-- Instance of C11 at `PYPYLOG=:out.log` from the initial state. -/
theorem C11_empty_prefix_matches_all_witness :
    (initial (some ":out.log".toList)).debug_ready = false ∧
    (initial (some ":out.log".toList)).debug_profile = false ∧
    (initial (some ":out.log".toList)).PYPYLOG = some (':' :: "out.log".toList) ∧
    ( DebugState.debug_prefix (pypy_debug_ensure_opened plainOS (initial (some ":out.log".toList))) = some [] ∧
    (∀ c : CString, startswithoneof c [] = true) ∧
    (∀ (t : Int) (c : CString),
      (pypy_debug_start plainOS t c (initial (some ":out.log".toList))).pypy_have_debug_prints =
          or1 (shl1 (initial (some ":out.log".toList)).pypy_have_debug_prints) ∧
        and1 (pypy_debug_start plainOS t c (initial (some ":out.log".toList))).pypy_have_debug_prints = 1 ∧
        (pypy_debug_start plainOS t c (initial (some ":out.log".toList))).calls = (pypy_debug_ensure_opened plainOS (initial (some ":out.log".toList))).calls ++
          [LibCall.fprintf (pypy_debug_ensure_opened plainOS (initial (some ":out.log".toList))).pypy_debug_file
            ((pypy_debug_start plainOS t c (initial (some ":out.log".toList))).debug_start_colors_1 ++ "[".toList ++ fmt_llx t ++
              "] \x7b".toList ++ c ++ "\n".toList ++
              (pypy_debug_ensure_opened plainOS (initial (some ":out.log".toList))).debug_stop_colors)])) :=
  ⟨by decide, by decide, by decide,
    C11_empty_prefix_matches_all plainOS (initial (some ":out.log".toList)) "out.log".toList (by decide) (by decide) (by decide)⟩

/-! ## Profiling mode -/

/-- In a state that is initialised and in profiling mode, `pypy_debug_start`
and `pypy_debug_stop` do not read `debug_prefix`. -/
theorem profiling_ignores_filter (os : OS) (t : Int) (c : CString) (x : DebugState)
    (hready : x.debug_ready = true) (hprof : x.debug_profile = true)
    (p : Option CString) :
    pypy_debug_start os t c { x with debug_prefix := p } =
        { pypy_debug_start os t c x with debug_prefix := p } ∧
      pypy_debug_stop t c { x with debug_prefix := p } =
        { pypy_debug_stop t c x with debug_prefix := p } := by
  obtain ⟨m0, f, r, pr, c1, c2, sc, pfx, fn, fnf, tc, env, calls⟩ := x
  simp only at hready hprof
  subst hready hprof
  constructor
  · by_cases h1 : deref c1 = NUL
    · by_cases h2 : deref sc = NUL
      · simp [pypy_debug_start, pypy_debug_ensure_opened, pypy_debug_start_display,
          _prepare_display_colors, display_startstop, h1, h2]
      · simp [pypy_debug_start, pypy_debug_ensure_opened, pypy_debug_start_display,
          _prepare_display_colors, display_startstop, h1, h2]
    · simp [pypy_debug_start, pypy_debug_ensure_opened, pypy_debug_start_display,
        display_startstop, h1]
  · simp [pypy_debug_stop, display_startstop]

/-- C12: in profiling mode, for every category and every value of the mask,
`pypy_debug_start` shifts the mask left by one and writes the opening marker,
`pypy_debug_stop` writes the closing marker and shifts the mask right by one,
and neither depends on `debug_prefix`. -/
theorem C12_profiling_always_emits (os : OS) (t : Int) (c : CString) (s : DebugState)
    (hmode : (pypy_debug_ensure_opened os s).debug_profile = true) :
    ((pypy_debug_start os t c s).pypy_have_debug_prints = shl1 s.pypy_have_debug_prints ∧
      (pypy_debug_start os t c s).calls = (pypy_debug_ensure_opened os s).calls ++
        [LibCall.fprintf (pypy_debug_ensure_opened os s).pypy_debug_file
          ((pypy_debug_start os t c s).debug_start_colors_1 ++ "[".toList ++ fmt_llx t ++
            "] \x7b".toList ++ c ++ "\n".toList ++
            (pypy_debug_ensure_opened os s).debug_stop_colors)]) ∧
    ((pypy_debug_stop t c (pypy_debug_ensure_opened os s)).pypy_have_debug_prints =
        shr1 s.pypy_have_debug_prints ∧
      (pypy_debug_stop t c (pypy_debug_ensure_opened os s)).calls =
        (pypy_debug_ensure_opened os s).calls ++
          [LibCall.fprintf (pypy_debug_ensure_opened os s).pypy_debug_file
            ((pypy_debug_ensure_opened os s).debug_start_colors_2 ++ "[".toList ++
              fmt_llx t ++ "] ".toList ++ c ++ "\x7d\n".toList ++
              (pypy_debug_ensure_opened os s).debug_stop_colors)]) ∧
    (∀ p : Option CString,
      pypy_debug_start os t c { pypy_debug_ensure_opened os s with debug_prefix := p } =
          { pypy_debug_start os t c (pypy_debug_ensure_opened os s) with debug_prefix := p } ∧
        pypy_debug_stop t c { pypy_debug_ensure_opened os s with debug_prefix := p } =
          { pypy_debug_stop t c (pypy_debug_ensure_opened os s) with debug_prefix := p }) := by
  have hf := ensure_opened_frame os s
  refine ⟨⟨?_, ?_⟩, ⟨?_, ?_⟩, ?_⟩
  · rw [start_profile os t c s hmode]
    exact (start_display_spec os t c _).2.1
  · have h := start_calls os t c s
    rw [hmode] at h
    rw [h]
    simp
  · rw [(stop_spec t c _).2.1, hf.1]
  · rw [(stop_spec t c _).1, hmode]
    simp
  · intro p
    exact profiling_ignores_filter os t c _ hf.2.2.2.2.2 hmode p

/-- Instance of C12 at `PYPYLOG=out.log` from the initial state, category `gc`. -/
theorem C12_profiling_always_emits_witness :
    (pypy_debug_ensure_opened plainOS (initial (some "out.log".toList))).debug_profile = true ∧
    (((pypy_debug_start plainOS 255 "gc".toList (initial (some "out.log".toList))).pypy_have_debug_prints = shl1 (initial (some "out.log".toList)).pypy_have_debug_prints ∧
      (pypy_debug_start plainOS 255 "gc".toList (initial (some "out.log".toList))).calls = (pypy_debug_ensure_opened plainOS (initial (some "out.log".toList))).calls ++
        [LibCall.fprintf (pypy_debug_ensure_opened plainOS (initial (some "out.log".toList))).pypy_debug_file
          ((pypy_debug_start plainOS 255 "gc".toList (initial (some "out.log".toList))).debug_start_colors_1 ++ "[".toList ++ fmt_llx 255 ++
            "] \x7b".toList ++ "gc".toList ++ "\n".toList ++
            (pypy_debug_ensure_opened plainOS (initial (some "out.log".toList))).debug_stop_colors)]) ∧
    ((pypy_debug_stop 255 "gc".toList (pypy_debug_ensure_opened plainOS (initial (some "out.log".toList)))).pypy_have_debug_prints =
        shr1 (initial (some "out.log".toList)).pypy_have_debug_prints ∧
      (pypy_debug_stop 255 "gc".toList (pypy_debug_ensure_opened plainOS (initial (some "out.log".toList)))).calls =
        (pypy_debug_ensure_opened plainOS (initial (some "out.log".toList))).calls ++
          [LibCall.fprintf (pypy_debug_ensure_opened plainOS (initial (some "out.log".toList))).pypy_debug_file
            ((pypy_debug_ensure_opened plainOS (initial (some "out.log".toList))).debug_start_colors_2 ++ "[".toList ++
              fmt_llx 255 ++ "] ".toList ++ "gc".toList ++ "\x7d\n".toList ++
              (pypy_debug_ensure_opened plainOS (initial (some "out.log".toList))).debug_stop_colors)]) ∧
    (∀ p : Option CString,
      pypy_debug_start plainOS 255 "gc".toList { pypy_debug_ensure_opened plainOS (initial (some "out.log".toList)) with debug_prefix := p } =
          { pypy_debug_start plainOS 255 "gc".toList (pypy_debug_ensure_opened plainOS (initial (some "out.log".toList))) with debug_prefix := p } ∧
        pypy_debug_stop 255 "gc".toList { pypy_debug_ensure_opened plainOS (initial (some "out.log".toList)) with debug_prefix := p } =
          { pypy_debug_stop 255 "gc".toList (pypy_debug_ensure_opened plainOS (initial (some "out.log".toList))) with debug_prefix := p })) :=
  ⟨by decide,
    C12_profiling_always_emits plainOS 255 "gc".toList (initial (some "out.log".toList)) (by decide)⟩

/-! ## Colour markers of a thread -/

theorem digitChar_dec (k : Nat) (hk : k < 10) :
    Nat.digitChar k ∈ decAlphabet ∧ decAlphabet.indexOf (Nat.digitChar k) = k ∧
      (k ≠ 0 → Nat.digitChar k ≠ '0') := by
  interval_cases k <;> decide

theorem decValue_append_singleton (L : CString) (d : Char) :
    decValue (L ++ [d]) = 10 * decValue L + decAlphabet.indexOf d := by
  simp [decValue, List.foldl_append]

/-- The digits `Nat.toDigitsCore` puts in front of its accumulator, in base
10 and with enough fuel: decimal digits that denote the number, without a
leading zero. -/
theorem toDigitsCore_dec :
    ∀ (fuel n : Nat) (ds : CString), n < fuel →
      ∃ L : CString, Nat.toDigitsCore 10 fuel n ds = L ++ ds ∧
        (∀ ch ∈ L, ch ∈ decAlphabet) ∧ decValue L = n ∧
        (n ≠ 0 → L.head? ≠ some '0') ∧ (n = 0 → L = ['0']) := by
  intro fuel
  induction fuel with
  | zero => intro n ds h; omega
  | succ fuel ih =>
    intro n ds hn
    obtain ⟨hmem, hidx, hne⟩ := digitChar_dec (n % 10) (Nat.mod_lt _ (by norm_num))
    by_cases h0 : n / 10 = 0
    · have hlt : n < 10 := by omega
      have hmod : n % 10 = n := Nat.mod_eq_of_lt hlt
      rw [hmod] at hmem hidx hne
      refine ⟨[Nat.digitChar n], ?_, ?_, ?_, ?_, ?_⟩
      · simp [Nat.toDigitsCore, h0, hmod]
      · intro ch hch; simp at hch; rw [hch]; exact hmem
      · simp [decValue, hidx]
      · intro hn0; simpa using hne hn0
      · intro hn0; subst hn0; rfl
    · obtain ⟨L, hL, hall, hval, hhead, -⟩ :=
        ih (n / 10) (Nat.digitChar (n % 10) :: ds) (by omega)
      refine ⟨L ++ [Nat.digitChar (n % 10)], ?_, ?_, ?_, ?_, ?_⟩
      · simp [Nat.toDigitsCore, h0, hL]
      · intro ch hch
        rcases List.mem_append.mp hch with h | h
        · exact hall ch h
        · simp at h; rw [h]; exact hmem
      · rw [decValue_append_singleton, hval, hidx]; omega
      · intro _
        have := hhead h0
        cases L with
        | nil => simp [decValue] at hval; omega
        | cons a L => simpa using this
      · intro hn0; omega

/-- The model of `%d` prints a non-negative value in decimal digits, without
sign and without padding. -/
theorem fmt_d_dec (n : Int) (hn : 0 ≤ n) :
    (∀ ch ∈ fmt_d n, ch ∈ decAlphabet) ∧ (decValue (fmt_d n) : Int) = n ∧
      ((fmt_d n).head? ≠ some '0' ∨ fmt_d n = ['0']) := by
  obtain ⟨L, hL, hall, hval, hhead, hzero⟩ :=
    toDigitsCore_dec (n.natAbs + 1) n.natAbs [] (by omega)
  have hfmt : fmt_d n = L := by
    simp only [fmt_d, Nat.toDigits, not_lt.mpr hn, if_false]; rw [hL]; simp
  rw [hfmt]
  refine ⟨hall, ?_, ?_⟩
  · rw [hval]; omega
  · by_cases h0 : n.natAbs = 0
    · exact Or.inr (hzero h0)
    · exact Or.inl (hhead h0)

theorem wrapInt_of_range (x : Int) (h0 : -2 ^ 31 ≤ x) (h1 : x < 2 ^ 31) : wrapInt x = x := by
  unfold wrapInt
  omega

/-- C13: for a thread id `n` with `0 ≤ n < 2^31` read from `threadcounter`,
`_prepare_display_colors` sets both markers to the plain tag `<n># ` when
`debug_stop_colors` is empty; when it is not and no shared colour is supplied,
the colour code is `31 + n mod 7`, which lies in 31..37, `debug_start_colors_2`
is `ESC[<colour>m<n># ` and `debug_start_colors_1` is the same text followed
by `ESC[1m`. The id and the colour are printed in decimal. -/
theorem C13_display_colors (os : OS) (s : DebugState) (n : Int)
    (hn0 : 0 ≤ n) (hn1 : n < 2 ^ 31) (hcounter : s.threadcounter = n) :
    (s.debug_stop_colors = [] →
      (_prepare_display_colors os s).debug_start_colors_1 = fmt_d n ++ "# ".toList ∧
        (_prepare_display_colors os s).debug_start_colors_2 = fmt_d n ++ "# ".toList) ∧
    (deref s.debug_stop_colors ≠ NUL → os.dprintfcolor = 0 →
      (31 ≤ 31 + n % 7 ∧ 31 + n % 7 ≤ 37) ∧
        (_prepare_display_colors os s).debug_start_colors_2 =
          "\x1b[".toList ++ fmt_d (31 + n % 7) ++ "m".toList ++ fmt_d n ++ "# ".toList ∧
        (_prepare_display_colors os s).debug_start_colors_1 =
          (_prepare_display_colors os s).debug_start_colors_2 ++ "\x1b[1m".toList) ∧
    ((∀ ch ∈ fmt_d n, ch ∈ decAlphabet) ∧ (decValue (fmt_d n) : Int) = n ∧
      ((fmt_d n).head? ≠ some '0' ∨ fmt_d n = ['0'])) ∧
    ((∀ ch ∈ fmt_d (31 + n % 7), ch ∈ decAlphabet) ∧
      (decValue (fmt_d (31 + n % 7)) : Int) = 31 + n % 7) := by
  have hw : wrapInt n = n := wrapInt_of_range n (by omega) hn1
  have hmod : Int.tmod n 7 = n % 7 := Int.tmod_eq_emod hn0 (by norm_num)
  have hm0 : 0 ≤ n % 7 := Int.emod_nonneg n (by norm_num)
  have hm1 : n % 7 < 7 := Int.emod_lt_of_pos n (by norm_num)
  have hw2 : wrapInt (n % 7) = n % 7 := wrapInt_of_range _ (by omega) (by omega)
  have hw3 : wrapInt (31 + n % 7) = 31 + n % 7 := wrapInt_of_range _ (by omega) (by omega)
  have hd1 := fmt_d_dec n hn0
  have hd2 := fmt_d_dec (31 + n % 7) (by omega)
  refine ⟨?_, ?_, hd1, hd2.1, hd2.2.1⟩
  · intro hplain
    simp [_prepare_display_colors, hplain, deref, hcounter, hw]
  · intro htty hcolor
    refine ⟨⟨by omega, by omega⟩, ?_, ?_⟩
    · simp [_prepare_display_colors, htty, hcounter, hw, hcolor, hmod, hw2, hw3]
    · simp [_prepare_display_colors, htty, hcounter, hw, hcolor, hmod, hw2, hw3]

/-- Instance of C13: thread id 9 on a colour terminal. -/
theorem C13_display_colors_witness :
    (0 : Int) ≤ 9 ∧
    (9 : Int) < 2 ^ 31 ∧
    colourTerminalState.threadcounter = 9 ∧
    ((colourTerminalState.debug_stop_colors = [] →
      (_prepare_display_colors plainOS colourTerminalState).debug_start_colors_1 = fmt_d (9 : Int) ++ "# ".toList ∧
        (_prepare_display_colors plainOS colourTerminalState).debug_start_colors_2 = fmt_d (9 : Int) ++ "# ".toList) ∧
    (deref colourTerminalState.debug_stop_colors ≠ NUL → plainOS.dprintfcolor = 0 →
      (31 ≤ 31 + (9 : Int) % 7 ∧ 31 + (9 : Int) % 7 ≤ 37) ∧
        (_prepare_display_colors plainOS colourTerminalState).debug_start_colors_2 =
          "\x1b[".toList ++ fmt_d (31 + (9 : Int) % 7) ++ "m".toList ++ fmt_d (9 : Int) ++ "# ".toList ∧
        (_prepare_display_colors plainOS colourTerminalState).debug_start_colors_1 =
          (_prepare_display_colors plainOS colourTerminalState).debug_start_colors_2 ++ "\x1b[1m".toList) ∧
    ((∀ ch ∈ fmt_d (9 : Int), ch ∈ decAlphabet) ∧ (decValue (fmt_d (9 : Int)) : Int) = (9 : Int) ∧
      ((fmt_d (9 : Int)).head? ≠ some '0' ∨ fmt_d (9 : Int) = ['0'])) ∧
    ((∀ ch ∈ fmt_d (31 + (9 : Int) % 7), ch ∈ decAlphabet) ∧
      (decValue (fmt_d (31 + (9 : Int) % 7)) : Int) = 31 + (9 : Int) % 7)) :=
  ⟨by norm_num, by norm_num, by decide,
    C13_display_colors plainOS colourTerminalState (9 : Int) (by norm_num) (by norm_num) (by decide)⟩

/-! ## Clearing the environment variable -/

theorem open_clears_env (os : OS) (s : DebugState) :
    (pypy_debug_open os s).PYPYLOG = none ∧
      (pypy_debug_open os s).calls.getLast? =
        (if s.PYPYLOG.isSome then some LibCall.unsetenv_PYPYLOG else s.calls.getLast?) := by
  obtain ⟨m0, f, r, p, c1, c2, sc, pfx, fn, fnf, tc, env, calls⟩ := s
  cases env with
  | none => cases f <;> simp [pypy_debug_open]
  | some v =>
    unfold pypy_debug_open
    simp only [Option.isSome_some, if_true]
    split_ifs <;> simp

theorem open_win32_clears_env (os : OS) (s : DebugState) :
    (pypy_debug_open_win32 os s).PYPYLOG = (if s.PYPYLOG.isSome then some [] else none) ∧
      (pypy_debug_open_win32 os s).calls.getLast? =
        (if s.PYPYLOG.isSome then some LibCall.putenv_PYPYLOG_empty
          else s.calls.getLast?) := by
  obtain ⟨m0, f, r, p, c1, c2, sc, pfx, fn, fnf, tc, env, calls⟩ := s
  cases env with
  | none => cases f <;> simp [pypy_debug_open_win32]
  | some v =>
    unfold pypy_debug_open_win32
    simp only [Option.isSome_some, if_true]
    split_ifs <;> simp

/-- A process started with `PYPYLOG` unset or empty is not configured by it. -/
theorem unconfigured_child (os : OS) (env : Option CString)
    (henv : env = none ∨ env = some []) :
    (pypy_debug_ensure_opened os (initial env)).debug_profile = false ∧
      DebugState.debug_prefix (pypy_debug_ensure_opened os (initial env)) = none ∧
      (pypy_debug_ensure_opened os (initial env)).debug_filename = none ∧
      (pypy_debug_ensure_opened os (initial env)).pypy_debug_file = some FILE.stderr := by
  rcases henv with rfl | rfl <;>
    simp [pypy_debug_ensure_opened, pypy_debug_open, initial, deref]

/-- C14: after `pypy_debug_open` the variable `PYPYLOG` is unset, and when it
was present, whatever its value, the last library call is the `unsetenv`; the
build for Windows instead ends with `putenv("PYPYLOG=")` and leaves the
variable empty. A process started with the environment left behind, in either
build, is in no profiling mode, has no prefix list and no trace file. -/
theorem C14_environment_cleared (os : OS) (s : DebugState) :
    (pypy_debug_open os s).PYPYLOG = none ∧
    (∀ v : CString, s.PYPYLOG = some v →
      (pypy_debug_open os s).calls.getLast? = some LibCall.unsetenv_PYPYLOG ∧
        (pypy_debug_open_win32 os s).PYPYLOG = some [] ∧
        (pypy_debug_open_win32 os s).calls.getLast? = some LibCall.putenv_PYPYLOG_empty) ∧
    (s.PYPYLOG = none →
      (pypy_debug_open os s).calls = s.calls ∧
        (pypy_debug_open_win32 os s).PYPYLOG = none ∧
        (pypy_debug_open_win32 os s).calls = s.calls) ∧
    (∀ (os2 : OS) (env : Option CString),
      (env = (pypy_debug_open os s).PYPYLOG ∨ env = (pypy_debug_open_win32 os s).PYPYLOG) →
      (pypy_debug_ensure_opened os2 (initial env)).debug_profile = false ∧
        DebugState.debug_prefix (pypy_debug_ensure_opened os2 (initial env)) = none ∧
        (pypy_debug_ensure_opened os2 (initial env)).debug_filename = none ∧
        (pypy_debug_ensure_opened os2 (initial env)).pypy_debug_file = some FILE.stderr) := by
  obtain ⟨h1, h2⟩ := open_clears_env os s
  obtain ⟨w1, w2⟩ := open_win32_clears_env os s
  refine ⟨h1, ?_, ?_, ?_⟩
  · intro v hv
    rw [hv] at h2 w1 w2
    exact ⟨by simpa using h2, by simpa using w1, by simpa using w2⟩
  · intro hnone
    obtain ⟨m0, f, r, p, c1, c2, sc, pfx, fn, fnf, tc, env, calls⟩ := s
    simp only at hnone
    subst hnone
    cases f <;> simp [pypy_debug_open, pypy_debug_open_win32]
  · intro os2 env henv
    apply unconfigured_child
    rcases henv with h | h
    · left; rw [h, h1]
    · rw [h, w1]
      split_ifs
      · right; rfl
      · left; rfl

/-! ## Initialisation happens once -/

theorem start_ready (os : OS) (t : Int) (c : CString) (s : DebugState) :
    (pypy_debug_start os t c s).debug_ready = true := by
  have hrdy := (ensure_opened_frame os s).2.2.2.2.2
  cases hmode : (pypy_debug_ensure_opened os s).debug_profile with
  | true =>
    rw [start_profile os t c s hmode, (start_display_spec os t c _).2.2.1]
    exact hrdy
  | false =>
    cases hact : is_active (pypy_debug_ensure_opened os s) c with
    | true =>
      rw [start_active os t c s hmode hact, (start_display_spec os t c _).2.2.1]
      exact hrdy
    | false =>
      rw [start_inactive os t c s hmode hact]
      exact hrdy

theorem runOps_ready (os : OS) :
    ∀ (ops : List Op) (s : DebugState), s.debug_ready = true →
      (runOps os ops s).debug_ready = true := by
  intro ops
  induction ops with
  | nil => intro s h; exact h
  | cons op ops ih =>
    intro s h
    cases op with
    | start t c => exact ih _ (start_ready os t c s)
    | stop t c =>
      exact ih _ (by
        show (pypy_debug_stop t c s).debug_ready = true
        rw [(stop_spec t c s).2.2.1]; exact h)

theorem forked_ready (os : OS) (offset : Int) (s : DebugState) :
    (pypy_debug_forked os offset s).debug_ready = s.debug_ready := by
  unfold pypy_debug_forked
  cases s.debug_filename with
  | none => rfl
  | some root =>
    simp only
    split_ifs <;> rfl

/-- C15: the first call of `pypy_debug_ensure_opened` leaves `debug_ready` set;
a later call changes nothing, whatever value `PYPYLOG` has been given in
between and whatever `pypy_debug_start`, `pypy_debug_stop`, `pypy_debug_forked`
and `pypy_debug_offset` calls were made in between. -/
theorem C15_ensure_opened_once (os os2 : OS) (s : DebugState) :
    (pypy_debug_ensure_opened os s).debug_ready = true ∧
    pypy_debug_ensure_opened os2 (pypy_debug_ensure_opened os s) =
      pypy_debug_ensure_opened os s ∧
    (∀ env : Option CString,
      pypy_debug_ensure_opened os2 { pypy_debug_ensure_opened os s with PYPYLOG := env } =
        { pypy_debug_ensure_opened os s with PYPYLOG := env }) ∧
    (∀ (ops : List Op) (offset : Int) (env : Option CString),
      pypy_debug_ensure_opened os2
          { runOps os ops (pypy_debug_ensure_opened os s) with PYPYLOG := env } =
        { runOps os ops (pypy_debug_ensure_opened os s) with PYPYLOG := env } ∧
      pypy_debug_ensure_opened os2
          { pypy_debug_forked os offset (pypy_debug_ensure_opened os s) with
            PYPYLOG := env } =
        { pypy_debug_forked os offset (pypy_debug_ensure_opened os s) with
          PYPYLOG := env } ∧
      pypy_debug_ensure_opened os2
          { (pypy_debug_offset os (pypy_debug_ensure_opened os s)).2 with PYPYLOG := env } =
        { (pypy_debug_offset os (pypy_debug_ensure_opened os s)).2 with PYPYLOG := env }) := by
  have hrdy := (ensure_opened_frame os s).2.2.2.2.2
  refine ⟨hrdy, ensure_opened_of_ready os2 _ hrdy, ?_, ?_⟩
  · intro env
    exact ensure_opened_of_ready os2 _ hrdy
  · intro ops offset env
    refine ⟨?_, ?_, ?_⟩
    · exact ensure_opened_of_ready os2 _ (runOps_ready os ops _ hrdy)
    · exact ensure_opened_of_ready os2 _ (by
        show (pypy_debug_forked os offset (pypy_debug_ensure_opened os s)).debug_ready = true
        rw [forked_ready]; exact hrdy)
    · exact ensure_opened_of_ready os2 _ (by
        show (pypy_debug_offset os (pypy_debug_ensure_opened os s)).2.debug_ready = true
        simp [pypy_debug_offset, hrdy])

/-! ## Allocation of thread ids -/

theorem wrapLong_of_range (x : Int) (h0 : -2 ^ 63 ≤ x) (h1 : x < 2 ^ 63) : wrapLong x = x := by
  unfold wrapLong
  omega

/-- With a compare-and-swap that succeeds when nothing interferes, the loop
breaks in its first iteration. -/
theorem thread_id_loop_first (cas : Int → Int → Int → Int × Bool)
    (hcas : ∀ v n, cas v v n = (n, true)) (fuel : Nat) (hfuel : 0 < fuel) (tc : Int) :
    thread_id_loop cas fuel tc = some (tc, wrapLong (tc + 1)) := by
  cases fuel with
  | zero => omega
  | succ fuel => simp [thread_id_loop, hcas]

theorem allocate_ids_range (cas : Int → Int → Int → Int × Bool)
    (hcas : ∀ v n, cas v v n = (n, true)) (fuel : Nat) (hfuel : 0 < fuel) :
    ∀ (n k : Nat), ((k + n : Nat) : Int) < 2 ^ 63 →
      allocate_ids cas fuel n (k : Int) =
        some ((List.range' k n).map Int.ofNat, ((k + n : Nat) : Int)) := by
  intro n
  induction n with
  | zero => intro k _; simp [allocate_ids]
  | succ n ih =>
    intro k hk
    have hw : wrapLong ((k : Int) + 1) = ((k + 1 : Nat) : Int) := by
      rw [wrapLong_of_range] <;> push_cast at hk ⊢ <;> omega
    have hnext := ih (k + 1) (by push_cast at hk ⊢; omega)
    rw [allocate_ids, thread_id_loop_first cas hcas fuel hfuel]
    dsimp only
    rw [hw, hnext]
    dsimp only
    rw [List.range'_succ, List.map_cons]
    have e : k + 1 + n = k + (n + 1) := by omega
    rw [e]
    rfl

theorem prepare_threadcounter (os : OS) (s : DebugState) :
    (_prepare_display_colors os s).threadcounter = wrapLong (s.threadcounter + 1) := by
  unfold _prepare_display_colors
  simp only [bool_cas]
  split_ifs <;> rfl

/-- C16: with at least one iteration allowed, the read / compare-and-swap /
retry loop of `_prepare_display_colors` breaks in its first iteration, for the
macro `bool_cas` of the source as for an atomic compare-and-swap, and is the
update of `threadcounter` that `_prepare_display_colors` makes. Starting from
`threadcounter = 0`, `n` allocations one after another (`n` in the range of
`long`) obtain the ids `0, 1, ..., n-1` in this order, the `(k+1)`-th being
`k`, and leave `threadcounter` equal to `n`; the ids are strictly increasing
and pairwise distinct. -/
theorem C16_thread_ids_sequential (fuel n : Nat) (hfuel : 0 < fuel)
    (hn : (n : Int) < 2 ^ 63) :
    allocate_ids bool_cas fuel n 0 = some ((List.range n).map Int.ofNat, (n : Int)) ∧
    allocate_ids bool_cas_atomic fuel n 0 = some ((List.range n).map Int.ofNat, (n : Int)) ∧
    ((List.range n).map Int.ofNat).Pairwise (· < ·) ∧
    ((List.range n).map Int.ofNat).Nodup ∧
    (∀ k : Nat, k < n → ((List.range n).map Int.ofNat)[k]? = some (k : Int)) ∧
    (∀ tc : Int, thread_id_loop bool_cas fuel tc = some (tc, wrapLong (tc + 1))) ∧
    (∀ tc : Int, thread_id_loop bool_cas_atomic fuel tc = some (tc, wrapLong (tc + 1))) ∧
    (∀ (os : OS) (s : DebugState),
      thread_id_loop bool_cas fuel s.threadcounter =
        some (s.threadcounter, (_prepare_display_colors os s).threadcounter)) := by
  have hmacro : ∀ v n : Int, bool_cas v v n = (n, true) := fun _ _ => rfl
  have hatomic : ∀ v n : Int, bool_cas_atomic v v n = (n, true) := by
    intro v n; simp [bool_cas_atomic]
  have hrange : List.range n = List.range' 0 n := List.range_eq_range' n
  have h1 := allocate_ids_range bool_cas hmacro fuel hfuel n 0 (by simpa using hn)
  have h2 := allocate_ids_range bool_cas_atomic hatomic fuel hfuel n 0 (by simpa using hn)
  simp only [Nat.cast_zero, zero_add] at h1 h2
  have hpair : ((List.range n).map Int.ofNat).Pairwise (· < ·) := by
    rw [List.pairwise_map]
    exact (List.pairwise_lt_range n).imp (fun h => by simpa using h)
  refine ⟨by rw [hrange]; exact h1, by rw [hrange]; exact h2, hpair, ?_, ?_, ?_, ?_, ?_⟩
  · exact hpair.imp (fun h => ne_of_lt h)
  · intro k hk
    simp [hk]
  · intro tc; exact thread_id_loop_first bool_cas hmacro fuel hfuel tc
  · intro tc; exact thread_id_loop_first bool_cas_atomic hatomic fuel hfuel tc
  · intro os s
    rw [thread_id_loop_first bool_cas hmacro fuel hfuel, prepare_threadcounter]

/-- Instance of C16: three allocations with at most five iterations each. -/
theorem C16_thread_ids_sequential_witness :
    0 < 5 ∧ ((3 : Nat) : Int) < 2 ^ 63 ∧
    (allocate_ids bool_cas 5 3 0 = some ((List.range 3).map Int.ofNat, ((3 : Nat) : Int)) ∧
    allocate_ids bool_cas_atomic 5 3 0 =
      some ((List.range 3).map Int.ofNat, ((3 : Nat) : Int)) ∧
    ((List.range 3).map Int.ofNat).Pairwise (· < ·) ∧
    ((List.range 3).map Int.ofNat).Nodup ∧
    (∀ k : Nat, k < 3 → ((List.range 3).map Int.ofNat)[k]? = some (k : Int)) ∧
    (∀ tc : Int, thread_id_loop bool_cas 5 tc = some (tc, wrapLong (tc + 1))) ∧
    (∀ tc : Int, thread_id_loop bool_cas_atomic 5 tc = some (tc, wrapLong (tc + 1))) ∧
    (∀ (os : OS) (s : DebugState),
      thread_id_loop bool_cas 5 s.threadcounter =
        some (s.threadcounter, (_prepare_display_colors os s).threadcounter))) :=
  ⟨by decide, by norm_num, C16_thread_ids_sequential 5 3 (by decide) (by norm_num)⟩

/-! ## Fork without a trace file -/

/-- C17: when `debug_filename` is NULL, `pypy_debug_forked` returns the state
it was given, the log of library calls included: no `fclose`, no `fopen`, no
`fprintf`, and the recorded filenames stay as they were. This is the state
after initialisation whenever `PYPYLOG` is unset, empty, or names `-` as its
file. -/
theorem C17_forked_without_file (os : OS) (offset : Int) (s : DebugState)
    (hfile : s.debug_filename = none) :
    pypy_debug_forked os offset s = s ∧
    (∀ (os1 : OS) (env : Option CString), (env = none ∨ env = some []) →
      pypy_debug_forked os offset (pypy_debug_ensure_opened os1 (initial env)) =
        pypy_debug_ensure_opened os1 (initial env)) ∧
    (∀ (os1 : OS) (pre : CString), ':' ∉ pre → NUL ∉ pre →
      pypy_debug_forked os offset
          (pypy_debug_ensure_opened os1 (initial (some (pre ++ ":-".toList)))) =
        pypy_debug_ensure_opened os1 (initial (some (pre ++ ":-".toList)))) ∧
    (∀ os1 : OS,
      pypy_debug_forked os offset (pypy_debug_ensure_opened os1 (initial (some "-".toList))) =
        pypy_debug_ensure_opened os1 (initial (some "-".toList))) := by
  have hnoop : ∀ x : DebugState, x.debug_filename = none → pypy_debug_forked os offset x = x := by
    intro x hx
    unfold pypy_debug_forked
    rw [hx]
  have he : ∀ (os1 : OS) (env : Option CString),
      pypy_debug_ensure_opened os1 (initial env) = pypy_debug_open os1 (initial env) := by
    intro os1 env; rfl
  refine ⟨hnoop s hfile, ?_, ?_, ?_⟩
  · intro os1 env henv
    exact hnoop _ (unconfigured_child os1 env henv).2.2.1
  · intro os1 pre hpre hnul
    apply hnoop
    rw [he, open_with_colon os1 _ pre "-".toList hpre hnul rfl, if_pos rfl]
    rfl
  · intro os1
    apply hnoop
    rw [he, open_without_colon os1 _ "-".toList (by decide) (by decide) (by decide) rfl,
      if_pos rfl]
    rfl

/-- Instance of C17 at the initial state without `PYPYLOG`. -/
theorem C17_forked_without_file_witness :
    (initial none).debug_filename = none ∧
    (pypy_debug_forked plainOS 42 (initial none) = initial none ∧
    (∀ (os1 : OS) (env : Option CString), (env = none ∨ env = some []) →
      pypy_debug_forked plainOS 42 (pypy_debug_ensure_opened os1 (initial env)) =
        pypy_debug_ensure_opened os1 (initial env)) ∧
    (∀ (os1 : OS) (pre : CString), ':' ∉ pre → NUL ∉ pre →
      pypy_debug_forked plainOS 42
          (pypy_debug_ensure_opened os1 (initial (some (pre ++ ":-".toList)))) =
        pypy_debug_ensure_opened os1 (initial (some (pre ++ ":-".toList)))) ∧
    (∀ os1 : OS,
      pypy_debug_forked plainOS 42
          (pypy_debug_ensure_opened os1 (initial (some "-".toList))) =
        pypy_debug_ensure_opened os1 (initial (some "-".toList)))) :=
  ⟨by decide, C17_forked_without_file plainOS 42 (initial none) (by decide)⟩

/-! ## The mask returns to its sentinel -/

/-- Whatever the mode, `pypy_debug_start` leaves the mask shifted left by one,
with or without the low bit set. -/
theorem start_mask (os : OS) (t : Int) (c : CString) (s : DebugState) :
    (pypy_debug_start os t c s).pypy_have_debug_prints = shl1 s.pypy_have_debug_prints ∨
      (pypy_debug_start os t c s).pypy_have_debug_prints =
        or1 (shl1 s.pypy_have_debug_prints) := by
  cases hmode : (pypy_debug_ensure_opened os s).debug_profile with
  | true =>
    left
    rw [start_profile os t c s hmode]
    exact (start_display_spec os t c _).2.1
  | false =>
    cases hact : is_active (pypy_debug_ensure_opened os s) c with
    | true =>
      right
      rw [start_active os t c s hmode hact]
      exact (start_display_spec os t c _).2.1
    | false =>
      left
      rw [start_inactive os t c s hmode hact]

/-- Below depth 63 a push keeps the mask negative with only ones above the
pushed bits. -/
theorem push_range (m : Int) (d : Nat) (hd : d < 63) (h0 : -2 ^ d ≤ m) (h1 : m < 0) :
    (-2 ^ (d + 1) ≤ shl1 m ∧ shl1 m < 0) ∧
      (-2 ^ (d + 1) ≤ or1 (shl1 m) ∧ or1 (shl1 m) < 0) := by
  have hpow : (2 : Int) ^ (d + 1) ≤ 2 ^ 63 :=
    pow_le_pow_right₀ (by norm_num) (by omega)
  have hsucc : (2 : Int) ^ (d + 1) = 2 ^ d * 2 := pow_succ 2 d
  have hs : shl1 m = m * 2 := by
    rw [shl1_eq, wrapLong_of_range] <;> omega
  rw [hs]
  refine ⟨⟨by omega, by omega⟩, ?_⟩
  unfold or1
  have hev : m * 2 % 2 = 0 := by omega
  rw [if_pos hev]
  constructor <;> omega

/-- A pop keeps the mask negative with only ones above the remaining bits. -/
theorem pop_range (m : Int) (d : Nat) (h0 : -2 ^ (d + 1) ≤ m) (h1 : m < 0) :
    -2 ^ d ≤ shr1 m ∧ shr1 m < 0 := by
  have hsucc : (2 : Int) ^ (d + 1) = 2 ^ d * 2 := pow_succ 2 d
  rw [shr1_eq]
  constructor <;> omega

/-- Along a well-nested sequence of depth at most 63, in any mode, the mask at
depth `d` lies in `[-2^d, 0)`. -/
theorem runOps_mask_range (os : OS) :
    ∀ (ops : List Op) (d : Nat) (s : DebugState),
      -2 ^ d ≤ s.pypy_have_debug_prints → s.pypy_have_debug_prints < 0 →
      wellNested 63 d ops = true →
      -2 ^ (depthAfter d ops) ≤ (runOps os ops s).pypy_have_debug_prints ∧
        (runOps os ops s).pypy_have_debug_prints < 0 := by
  intro ops
  induction ops with
  | nil => intro d s h0 h1 _; exact ⟨h0, h1⟩
  | cons op ops ih =>
    intro d s h0 h1 hnest
    cases op with
    | start t c =>
      simp only [wellNested, Bool.and_eq_true, decide_eq_true_eq] at hnest
      obtain ⟨hlen, hnest⟩ := hnest
      obtain ⟨hp1, hp2⟩ := push_range _ d hlen h0 h1
      simp only [runOps, Op.run, depthAfter]
      rcases start_mask os t c s with h | h
      · exact ih (d + 1) _ (by rw [h]; exact hp1.1) (by rw [h]; exact hp1.2) hnest
      · exact ih (d + 1) _ (by rw [h]; exact hp2.1) (by rw [h]; exact hp2.2) hnest
    | stop t c =>
      cases d with
      | zero => simp [wellNested] at hnest
      | succ d =>
        simp only [wellNested] at hnest
        obtain ⟨hq1, hq2⟩ := pop_range _ d h0 h1
        have hm := (stop_spec t c s).2.1
        simp only [runOps, Op.run, depthAfter, Nat.add_sub_cancel]
        exact ih d _ (by rw [hm]; exact hq1) (by rw [hm]; exact hq2) hnest

/-- C18: from the sentinel mask -1, every well-nested sequence of
`pypy_debug_start` / `pypy_debug_stop` calls of depth at most 63 that closes
all the sections it opens leaves the mask equal to -1, whatever the mode; the
low bit outside all sections is 1 before and after. -/
theorem C18_mask_returns_to_sentinel (os : OS) (s : DebugState) (ops : List Op)
    (hinit : s.pypy_have_debug_prints = -1)
    (hnest : wellNested 63 0 ops = true) (hbalanced : depthAfter 0 ops = 0) :
    (runOps os ops s).pypy_have_debug_prints = -1 ∧
      and1 s.pypy_have_debug_prints = 1 ∧
      and1 (runOps os ops s).pypy_have_debug_prints = 1 := by
  have h := runOps_mask_range os ops 0 s (by rw [hinit]; norm_num) (by rw [hinit]; norm_num)
    hnest
  rw [hbalanced] at h
  have hfinal : (runOps os ops s).pypy_have_debug_prints = -1 := by
    obtain ⟨h0, h1⟩ := h
    simp only [pow_zero] at h0
    omega
  refine ⟨hfinal, ?_, ?_⟩
  · rw [hinit]; decide
  · rw [hfinal]; decide

/-- Instance of C18: with `PYPYLOG=a:-`, section `a` encloses section `b`. -/
theorem C18_mask_returns_to_sentinel_witness :
    (initial (some "a:-".toList)).pypy_have_debug_prints = -1 ∧
    wellNested 63 0 [Op.start 1 "a".toList, Op.start 2 "b".toList, Op.stop 3 "b".toList, Op.stop 4 "a".toList] = true ∧
    depthAfter 0 [Op.start 1 "a".toList, Op.start 2 "b".toList, Op.stop 3 "b".toList, Op.stop 4 "a".toList] = 0 ∧
    ((runOps plainOS [Op.start 1 "a".toList, Op.start 2 "b".toList, Op.stop 3 "b".toList, Op.stop 4 "a".toList] (initial (some "a:-".toList))).pypy_have_debug_prints = -1 ∧
      and1 (initial (some "a:-".toList)).pypy_have_debug_prints = 1 ∧
      and1 (runOps plainOS [Op.start 1 "a".toList, Op.start 2 "b".toList, Op.stop 3 "b".toList, Op.stop 4 "a".toList] (initial (some "a:-".toList))).pypy_have_debug_prints = 1) :=
  ⟨by decide, by decide, by decide,
    C18_mask_returns_to_sentinel plainOS (initial (some "a:-".toList)) [Op.start 1 "a".toList, Op.start 2 "b".toList, Op.stop 3 "b".toList, Op.stop 4 "a".toList] (by decide) (by decide) (by decide)⟩

end DebugPrint
